import Mathlib

/-!
Verification development for a resource-bounded priority dispatcher in two
variants: a quantum-processor task simulator (variant A, `QuantumSimulator`)
and an energy-grid monitoring system (variant B, `EnergyMonitorSystem`).
The C++ sources are shallowly embedded: the priority queue as a list with a
maximal-element pop, the counting semaphore as a natural-number counter, and
each worker loop as a labelled transition system over an explicit global
state.  Random draws (priorities, criticality, processing times, processor
choices) are modelled as nondeterministic parameters of the transitions.
-/

/-- Strict lexicographic order on integer pairs, for the specification key
`(critical, -priority)`. -/
def lexLt (k1 k2 : Int × Int) : Prop :=
  k1.1 < k2.1 ∨ (k1.1 = k2.1 ∧ k1.2 < k2.2)

/-- Removal of a maximal element, the model of `std::priority_queue::top` /
`pop`: returns a maximal element with respect to `lt` together with the
remaining elements.  The tie-break among equal elements is unspecified by the
heap; the model fixes one deterministic choice. -/
def popMax (lt : α → α → Bool) : α → List α → α × List α
  | c, [] => (c, [])
  | c, x :: xs =>
    if lt c x then ((popMax lt x xs).1, c :: (popMax lt x xs).2)
    else ((popMax lt c xs).1, x :: (popMax lt c xs).2)

/-- `pop` on a possibly empty queue. -/
def popMaxQ (lt : α → α → Bool) : List α → Option (α × List α)
  | [] => none
  | x :: xs => some (popMax lt x xs)

theorem popMax_length (lt : α → α → Bool) (c : α) (l : List α) :
    (popMax lt c l).2.length = l.length := by
  induction l generalizing c with
  | nil => rfl
  | cons x xs ih => simp only [popMax]; split <;> simp [ih]

theorem popMax_perm (lt : α → α → Bool) (c : α) (l : List α) :
    List.Perm ((popMax lt c l).1 :: (popMax lt c l).2) (c :: l) := by
  induction l generalizing c with
  | nil => exact List.Perm.refl _
  | cons x xs ih =>
    simp only [popMax]; split
    · exact (List.Perm.swap c (popMax lt x xs).1 (popMax lt x xs).2).trans
        ((ih x).cons c)
    · exact ((List.Perm.swap x (popMax lt c xs).1 (popMax lt c xs).2).trans
        ((ih c).cons x)).trans (List.Perm.swap c x xs)

theorem popMax_max (lt : α → α → Bool)
    (hIrr : ∀ a, lt a a = false)
    (hL : ∀ a b c, lt a b = false → lt c b = true → lt a c = false)
    (hT : ∀ a b c, lt a b = false → lt b c = false → lt a c = false)
    (c : α) (l : List α) :
    ∀ y ∈ c :: l, lt (popMax lt c l).1 y = false := by
  induction l generalizing c with
  | nil =>
    intro y hy
    have h : y = c := List.mem_singleton.mp hy
    rw [h]
    simpa [popMax] using hIrr c
  | cons x xs ih =>
    intro y hy
    simp only [popMax]
    split
    case isTrue h =>
      rcases List.mem_cons.mp hy with heq | hy'
      · rw [heq]
        exact hL _ x c (ih x x (List.mem_cons_self x xs)) h
      · exact ih x y hy'
    case isFalse h =>
      have hfalse : lt c x = false := by
        cases hcx : lt c x
        · rfl
        · exact absurd hcx h
      rcases List.mem_cons.mp hy with heq | hy'
      · rw [heq]
        exact ih c c (List.mem_cons_self c xs)
      · rcases List.mem_cons.mp hy' with heq | hy''
        · rw [heq]
          exact hT _ c x (ih c c (List.mem_cons_self c xs)) hfalse
        · exact ih c y (List.mem_cons_of_mem c hy'')

/-- Fuel-indexed repeated pop: the sequence of `pop_highest` results from a
fixed queue content with no interleaved pushes. -/
def drainF (lt : α → α → Bool) : Nat → List α → List α
  | 0, _ => []
  | _ + 1, [] => []
  | n + 1, x :: xs => (popMax lt x xs).1 :: drainF lt n (popMax lt x xs).2

/-- The full pop sequence of a queue. -/
def drainQ (lt : α → α → Bool) (l : List α) : List α :=
  drainF lt l.length l

theorem drainF_perm (lt : α → α → Bool) :
    ∀ (n : Nat) (l : List α), l.length ≤ n → List.Perm (drainF lt n l) l := by
  intro n
  induction n with
  | zero =>
    intro l h
    rcases List.length_eq_zero.mp (Nat.le_zero.mp h) with rfl
    exact List.Perm.refl _
  | succ n ih =>
    intro l h
    cases l with
    | nil => exact List.Perm.refl _
    | cons x xs =>
      simp only [drainF]
      have hlen : (popMax lt x xs).2.length ≤ n := by
        rw [popMax_length]
        simp only [List.length_cons] at h
        omega
      exact ((ih _ hlen).cons _).trans (popMax_perm lt x xs)

theorem drainF_pairwise (lt : α → α → Bool)
    (hIrr : ∀ a, lt a a = false)
    (hL : ∀ a b c, lt a b = false → lt c b = true → lt a c = false)
    (hT : ∀ a b c, lt a b = false → lt b c = false → lt a c = false) :
    ∀ (n : Nat) (l : List α), l.length ≤ n →
      (drainF lt n l).Pairwise (fun a b => lt a b = false) := by
  intro n
  induction n with
  | zero => intro l _; exact List.Pairwise.nil
  | succ n ih =>
    intro l h
    cases l with
    | nil => exact List.Pairwise.nil
    | cons x xs =>
      simp only [drainF]
      have hlen : (popMax lt x xs).2.length ≤ n := by
        rw [popMax_length]
        simp only [List.length_cons] at h
        omega
      refine List.Pairwise.cons ?_ (ih _ hlen)
      intro b hb
      have hb2 : b ∈ (popMax lt x xs).2 := ((drainF_perm lt n _ hlen).mem_iff).mp hb
      have hb3 : b ∈ x :: xs :=
        (popMax_perm lt x xs).subset (List.mem_cons_of_mem _ hb2)
      exact popMax_max lt hIrr hL hT x xs b hb3

namespace QuantumSimulator

/-- Work item of variant A, mirroring `QuantumSimulator::Task`
(`{int priority; bool is_critical; int task_id;}`). -/
structure Task where
  priority : Int
  is_critical : Bool
  task_id : Int
deriving DecidableEq, Repr

/-- `QuantumSimulator::Task::operator<`: a critical task compares above any
non-critical one; among equal criticality a numerically larger priority value
compares below. -/
def taskLt (a b : Task) : Bool :=
  if a.is_critical != b.is_critical then !a.is_critical
  else decide (a.priority > b.priority)

/-- The key `(critical, -priority)` of the specification, criticality encoded
as an integer so that the lexicographic order is over pairs of integers. -/
def taskKey (t : Task) : Int × Int :=
  (if t.is_critical then 1 else 0, -t.priority)

theorem taskLt_iff_key (a b : Task) :
    taskLt a b = true ↔ lexLt (taskKey a) (taskKey b) := by
  unfold taskLt taskKey lexLt
  cases ha : a.is_critical <;> cases hb : b.is_critical <;> simp [ha, hb] <;> omega

theorem taskLt_irrefl (a : Task) : taskLt a a = false := by
  unfold taskLt; simp

theorem taskLt_neg_left (a b c : Task) (h1 : taskLt a b = false)
    (h2 : taskLt c b = true) : taskLt a c = false := by
  unfold taskLt at *
  cases ha : a.is_critical <;> cases hb : b.is_critical <;> cases hc : c.is_critical <;>
    simp [ha, hb, hc] at * <;> omega

theorem taskLt_neg_trans (a b c : Task) (h1 : taskLt a b = false)
    (h2 : taskLt b c = false) : taskLt a c = false := by
  unfold taskLt at *
  cases ha : a.is_critical <;> cases hb : b.is_critical <;> cases hc : c.is_critical <;>
    simp [ha, hb, hc] at * <;> omega

theorem drainQ_perm (l : List Task) : List.Perm (drainQ taskLt l) l :=
  drainF_perm taskLt l.length l le_rfl

theorem drainQ_pairwise (l : List Task) :
    (drainQ taskLt l).Pairwise (fun a b => taskLt a b = false) :=
  drainF_pairwise taskLt taskLt_irrefl taskLt_neg_left taskLt_neg_trans
    l.length l le_rfl

/-- Location of one worker thread inside its loop: `idle` at the loop head /
queue wait, `got` after popping a task but before `task_semaphore.wait()`,
`admitted` after the semaphore wait and before the probabilistic failure
injection, `staged` after the injection point and before processor
selection, `running` while executing on a chosen processor, `terminated`
after observing the shutdown flag at the loop head. -/
inductive WState where
  | idle
  | got (t : Task)
  | admitted (t : Task)
  | staged (t : Task)
  | running (t : Task) (p : Fin 4)
  | terminated
deriving DecidableEq, Repr

/-- Global state of `QuantumSimulator` with `n` worker threads: the task
priority queue, the count of the 4-slot `task_semaphore`, the
`processor_status` and `processor_task_count` maps over the 4 processors,
the `next_task_id` counter, the shutdown flag and the workers. -/
structure QState (n : Nat) where
  tasks : List Task
  sem : Nat
  healthy : Fin 4 → Bool
  procCount : Fin 4 → Int
  nextTaskId : Int
  shutdown : Bool
  workers : Fin n → WState

/-- `QuantumSimulator::add_task(priority, is_critical, task_id = -1)`: if the
caller passed the default `-1`, the id is `next_task_id++`, otherwise the
caller's id is used unchanged; the task is pushed.  The function is `void`,
modelled by the `Unit` component of the result. -/
def add_task (s : QState n) (priority : Int) (is_critical : Bool)
    (task_id : Int) : QState n × Unit :=
  (if task_id = -1 then
    { s with tasks := ⟨priority, is_critical, s.nextTaskId⟩ :: s.tasks,
             nextTaskId := s.nextTaskId + 1 }
   else
    { s with tasks := ⟨priority, is_critical, task_id⟩ :: s.tasks }, ())

/-- The id the pushed task actually receives in `add_task`. -/
def assigned_id (s : QState n) (task_id : Int) : Int :=
  if task_id = -1 then s.nextTaskId else task_id

/-- The redirection loop of `processor_failure`: `k` calls of
`add_task(1 + rand() % 5, rand() % 10 == 0)`, the two `rand()` draws of
iteration `i` supplied by the stream `rnd`. -/
def redirect (rnd : Nat → Nat × Nat) : QState n → Nat → Nat → QState n
  | s, _, 0 => s
  | s, i, k + 1 =>
    redirect rnd
      (add_task s (1 + (((rnd i).1 % 5 : Nat) : Int)) ((rnd i).2 % 10 == 0) (-1)).1
      (i + 1) k

/-- `QuantumSimulator::processor_failure(processor_id)`: a reported no-op on
an already-failed processor; otherwise marks it unhealthy, reads and zeroes
its task count, and pushes that many freshly randomized replacement tasks.
The function is `void`, modelled by the `Unit` component. -/
def processor_failure (s : QState n) (p : Fin 4) (rnd : Nat → Nat × Nat) :
    QState n × Unit :=
  if s.healthy p = false then (s, ())
  else
    (redirect rnd
      { s with healthy := Function.update s.healthy p false,
               procCount := Function.update s.procCount p 0 }
      0 (s.procCount p).toNat, ())

/-- `QuantumSimulator::processor_repair(processor_id)`: a reported no-op on a
working processor, otherwise marks it healthy. -/
def processor_repair (s : QState n) (p : Fin 4) : QState n :=
  if s.healthy p = true then s
  else { s with healthy := Function.update s.healthy p true }

/-- Transition labels: external producer calls, the phases of each worker's
loop, external failure/repair administration, and `stop()`. -/
inductive ActA (n : Nat) where
  | submit (priority : Int) (is_critical : Bool) (task_id : Int)
  | pop (w : Fin n)
  | acquire (w : Fin n)
  | inject (w : Fin n) (p : Fin 4) (rnd : Nat → Nat × Nat)
  | skipInject (w : Fin n)
  | select (w : Fin n) (p : Fin 4)
  | requeue (w : Fin n)
  | finish (w : Fin n)
  | extFail (p : Fin 4) (rnd : Nat → Nat × Nat)
  | repair (p : Fin 4)
  | halt
  | exitWorker (w : Fin n)

/-- One interleaved step of the system of `QuantumSimulator::worker_thread`
loops, producers and administrative calls.  Random choices (failure
injection and its target, processor selection among the healthy ones,
replacement-task parameters) appear as parameters of the label. -/
inductive StepA (n : Nat) : QState n → ActA n → QState n → Prop where
  | submit (s : QState n) (priority : Int) (is_critical : Bool) (task_id : Int) :
      StepA n s (.submit priority is_critical task_id)
        (add_task s priority is_critical task_id).1
  | pop (s : QState n) (w : Fin n) (t : Task) (r : List Task) :
      s.workers w = .idle → s.shutdown = false →
      popMaxQ taskLt s.tasks = some (t, r) →
      StepA n s (.pop w)
        { s with tasks := r, workers := Function.update s.workers w (.got t) }
  | acquire (s : QState n) (w : Fin n) (t : Task) :
      s.workers w = .got t → 0 < s.sem →
      StepA n s (.acquire w)
        { s with sem := s.sem - 1,
                 workers := Function.update s.workers w (.admitted t) }
  | inject (s : QState n) (w : Fin n) (t : Task) (p : Fin 4) (rnd : Nat → Nat × Nat) :
      s.workers w = .admitted t →
      StepA n s (.inject w p rnd)
        { (processor_failure s p rnd).1 with
            workers := Function.update s.workers w (.staged t) }
  | skipInject (s : QState n) (w : Fin n) (t : Task) :
      s.workers w = .admitted t →
      StepA n s (.skipInject w)
        { s with workers := Function.update s.workers w (.staged t) }
  | select (s : QState n) (w : Fin n) (t : Task) (p : Fin 4) :
      s.workers w = .staged t → s.healthy p = true →
      StepA n s (.select w p)
        { s with procCount := Function.update s.procCount p (s.procCount p + 1),
                 workers := Function.update s.workers w (.running t p) }
  | requeue (s : QState n) (w : Fin n) (t : Task) :
      s.workers w = .staged t → (∀ p, s.healthy p = false) →
      StepA n s (.requeue w)
        { s with tasks := t :: s.tasks, sem := s.sem + 1,
                 workers := Function.update s.workers w .idle }
  | finish (s : QState n) (w : Fin n) (t : Task) (p : Fin 4) :
      s.workers w = .running t p →
      StepA n s (.finish w)
        { s with procCount := Function.update s.procCount p
                   (if 0 < s.procCount p then s.procCount p - 1 else s.procCount p),
                 sem := s.sem + 1,
                 workers := Function.update s.workers w .idle }
  | extFail (s : QState n) (p : Fin 4) (rnd : Nat → Nat × Nat) :
      StepA n s (.extFail p rnd) (processor_failure s p rnd).1
  | repair (s : QState n) (p : Fin 4) :
      StepA n s (.repair p) (processor_repair s p)
  | halt (s : QState n) :
      StepA n s .halt { s with shutdown := true }
  | exitWorker (s : QState n) (w : Fin n) :
      s.workers w = .idle → s.shutdown = true →
      StepA n s (.exitWorker w)
        { s with workers := Function.update s.workers w .terminated }

/-- The constructed state: 4 healthy processors, semaphore at 4, task
counts 0, `next_task_id` starting at 1, all workers at the loop head. -/
def initA (n : Nat) : QState n :=
  { tasks := [], sem := 4, healthy := fun _ => true, procCount := fun _ => 0,
    nextTaskId := 1, shutdown := false, workers := fun _ => .idle }

/-- Reachability from the constructed state. -/
inductive ReachA (n : Nat) : QState n → Prop where
  | init : ReachA n (initA n)
  | step {s : QState n} {a : ActA n} {s' : QState n} :
      ReachA n s → StepA n s a s' → ReachA n s'

/-- Weight 1 for a worker holding an admission slot (between
`task_semaphore.wait()` and the matching `post()`). -/
def holdW : WState → Nat
  | .admitted _ => 1
  | .staged _ => 1
  | .running _ _ => 1
  | _ => 0

/-- Weight 1 for a worker executing on processor `p`. -/
def runW (p : Fin 4) : WState → Nat
  | .running _ q => if q = p then 1 else 0
  | _ => 0

/-- Weight 1 for a worker executing on any processor. -/
def isRunW : WState → Nat
  | .running _ _ => 1
  | _ => 0

/-- Number of admission slots currently held. -/
def heldA (s : QState n) : Nat := Finset.univ.sum fun w => holdW (s.workers w)

/-- Number of workers executing on processor `p`. -/
def runningOn (s : QState n) (p : Fin 4) : Nat :=
  Finset.univ.sum fun w => runW p (s.workers w)

/-- Number of simultaneously executing items. -/
def runningA (s : QState n) : Nat := Finset.univ.sum fun w => isRunW (s.workers w)

theorem holdW_idle : holdW .idle = 0 := rfl

theorem holdW_got (t : Task) : holdW (.got t) = 0 := rfl

theorem holdW_admitted (t : Task) : holdW (.admitted t) = 1 := rfl

theorem holdW_staged (t : Task) : holdW (.staged t) = 1 := rfl

theorem holdW_running (t : Task) (p : Fin 4) : holdW (.running t p) = 1 := rfl

theorem holdW_terminated : holdW .terminated = 0 := rfl

theorem runW_idle (p : Fin 4) : runW p .idle = 0 := rfl

theorem runW_got (p : Fin 4) (t : Task) : runW p (.got t) = 0 := rfl

theorem runW_admitted (p : Fin 4) (t : Task) : runW p (.admitted t) = 0 := rfl

theorem runW_staged (p : Fin 4) (t : Task) : runW p (.staged t) = 0 := rfl

theorem runW_running (p : Fin 4) (t : Task) (q : Fin 4) :
    runW p (.running t q) = if q = p then 1 else 0 := rfl

theorem runW_terminated (p : Fin 4) : runW p .terminated = 0 := rfl

theorem runW_running_same (p : Fin 4) (t : Task) : runW p (.running t p) = 1 := by
  simp [runW]

theorem runW_running_ne (p : Fin 4) (t : Task) (q : Fin 4) (h : q ≠ p) :
    runW p (.running t q) = 0 := by
  simp [runW, h]

theorem sum_update_g {n : Nat} (f : Fin n → WState) (g : WState → Nat)
    (w : Fin n) (x : WState) :
    ((Finset.univ.sum fun v => g (Function.update f w x v)) + g (f w))
      = (Finset.univ.sum fun v => g (f v)) + g x := by
  have hfun : (fun v => g (Function.update f w x v))
      = Function.update (fun v => g (f v)) w (g x) := by
    funext v
    by_cases hv : v = w
    · subst hv; simp
    · simp [Function.update_noteq hv]
  rw [hfun, Finset.sum_update_of_mem (Finset.mem_univ w)]
  have h2 : (Finset.univ.sum fun v => g (f v))
      = g (f w) + (Finset.univ.erase w).sum fun v => g (f v) :=
    (Finset.add_sum_erase Finset.univ (fun v => g (f v)) (Finset.mem_univ w)).symm
  rw [h2, Finset.sdiff_singleton_eq_erase]
  omega

/-- Inductive invariant of variant A: the semaphore count plus the held
slots is the constant capacity 4, and each processor's task count is
non-negative and bounded by the number of workers currently executing
there. -/
def InvA (s : QState n) : Prop :=
  s.sem + heldA s = 4 ∧
  ∀ p, 0 ≤ s.procCount p ∧ s.procCount p ≤ (runningOn s p : Int)

theorem add_task_sem (s : QState n) (pri : Int) (c : Bool) (i : Int) :
    (add_task s pri c i).1.sem = s.sem := by
  unfold add_task; split <;> rfl

theorem add_task_workers (s : QState n) (pri : Int) (c : Bool) (i : Int) :
    (add_task s pri c i).1.workers = s.workers := by
  unfold add_task; split <;> rfl

theorem add_task_procCount (s : QState n) (pri : Int) (c : Bool) (i : Int) :
    (add_task s pri c i).1.procCount = s.procCount := by
  unfold add_task; split <;> rfl

theorem add_task_healthy (s : QState n) (pri : Int) (c : Bool) (i : Int) :
    (add_task s pri c i).1.healthy = s.healthy := by
  unfold add_task; split <;> rfl

theorem add_task_shutdown (s : QState n) (pri : Int) (c : Bool) (i : Int) :
    (add_task s pri c i).1.shutdown = s.shutdown := by
  unfold add_task; split <;> rfl

theorem redirect_sem (rnd : Nat → Nat × Nat) :
    ∀ (k i : Nat) (s : QState n), (redirect rnd s i k).sem = s.sem := by
  intro k
  induction k with
  | zero => intro i s; rfl
  | succ k ih => intro i s; rw [redirect, ih, add_task_sem]

theorem redirect_workers (rnd : Nat → Nat × Nat) :
    ∀ (k i : Nat) (s : QState n), (redirect rnd s i k).workers = s.workers := by
  intro k
  induction k with
  | zero => intro i s; rfl
  | succ k ih => intro i s; rw [redirect, ih, add_task_workers]

theorem redirect_procCount (rnd : Nat → Nat × Nat) :
    ∀ (k i : Nat) (s : QState n), (redirect rnd s i k).procCount = s.procCount := by
  intro k
  induction k with
  | zero => intro i s; rfl
  | succ k ih => intro i s; rw [redirect, ih, add_task_procCount]

theorem redirect_healthy (rnd : Nat → Nat × Nat) :
    ∀ (k i : Nat) (s : QState n), (redirect rnd s i k).healthy = s.healthy := by
  intro k
  induction k with
  | zero => intro i s; rfl
  | succ k ih => intro i s; rw [redirect, ih, add_task_healthy]

theorem redirect_shutdown (rnd : Nat → Nat × Nat) :
    ∀ (k i : Nat) (s : QState n), (redirect rnd s i k).shutdown = s.shutdown := by
  intro k
  induction k with
  | zero => intro i s; rfl
  | succ k ih => intro i s; rw [redirect, ih, add_task_shutdown]

theorem processor_failure_sem (s : QState n) (p : Fin 4) (rnd : Nat → Nat × Nat) :
    (processor_failure s p rnd).1.sem = s.sem := by
  unfold processor_failure; split
  · rfl
  · rw [redirect_sem]

theorem processor_failure_workers (s : QState n) (p : Fin 4) (rnd : Nat → Nat × Nat) :
    (processor_failure s p rnd).1.workers = s.workers := by
  unfold processor_failure; split
  · rfl
  · rw [redirect_workers]

theorem processor_failure_shutdown (s : QState n) (p : Fin 4) (rnd : Nat → Nat × Nat) :
    (processor_failure s p rnd).1.shutdown = s.shutdown := by
  unfold processor_failure; split
  · rfl
  · rw [redirect_shutdown]

theorem processor_failure_procCount (s : QState n) (p : Fin 4) (rnd : Nat → Nat × Nat) :
    (processor_failure s p rnd).1.procCount = s.procCount ∨
    (processor_failure s p rnd).1.procCount = Function.update s.procCount p 0 := by
  unfold processor_failure; split
  · exact Or.inl rfl
  · exact Or.inr (by rw [redirect_procCount])

theorem InvA_congr {n : Nat} {s s' : QState n} (hs : s'.sem = s.sem)
    (hw : s'.workers = s.workers) (hc : s'.procCount = s.procCount)
    (h : InvA s) : InvA s' := by
  unfold InvA heldA runningOn at *
  rw [hs, hw, hc]
  exact h

theorem InvA_init (n : Nat) : InvA (initA n) := by
  unfold InvA initA heldA runningOn
  constructor
  · simp [holdW]
  · intro p; simp [runW]

theorem InvA_step {n : Nat} {s s' : QState n} {a : ActA n}
    (hInv : InvA s) (h : StepA n s a s') : InvA s' := by
  obtain ⟨hsem, hcount⟩ := hInv
  cases h with
  | submit pri c i =>
      exact InvA_congr (add_task_sem s pri c i) (add_task_workers s pri c i)
        (add_task_procCount s pri c i) ⟨hsem, hcount⟩
  | pop w t r hw0 hsd hqueue =>
      unfold InvA heldA runningOn; dsimp only
      have hupd := sum_update_g s.workers holdW w (.got t)
      rw [hw0] at hupd
      simp only [holdW_idle, holdW_got, holdW_admitted, holdW_staged, holdW_running, holdW_terminated] at hupd
      constructor
      · unfold heldA at hsem; omega
      · intro p
        have hrun := sum_update_g s.workers (runW p) w (.got t)
        rw [hw0] at hrun
        simp only [runW_idle, runW_got, runW_admitted, runW_staged, runW_running, runW_terminated] at hrun
        have hc := hcount p
        unfold runningOn at hc
        omega
  | acquire w t hw0 hsempos =>
      unfold InvA heldA runningOn; dsimp only
      have hupd := sum_update_g s.workers holdW w (.admitted t)
      rw [hw0] at hupd
      simp only [holdW_idle, holdW_got, holdW_admitted, holdW_staged, holdW_running, holdW_terminated] at hupd
      constructor
      · unfold heldA at hsem; omega
      · intro p
        have hrun := sum_update_g s.workers (runW p) w (.admitted t)
        rw [hw0] at hrun
        simp only [runW_idle, runW_got, runW_admitted, runW_staged, runW_running, runW_terminated] at hrun
        have hc := hcount p
        unfold runningOn at hc
        omega
  | inject w t p rnd hw0 =>
      unfold InvA heldA runningOn; dsimp only
      rw [processor_failure_sem]
      have hupd := sum_update_g s.workers holdW w (.staged t)
      rw [hw0] at hupd
      simp only [holdW_idle, holdW_got, holdW_admitted, holdW_staged, holdW_running, holdW_terminated] at hupd
      constructor
      · unfold heldA at hsem; omega
      · intro q
        have hrun := sum_update_g s.workers (runW q) w (.staged t)
        rw [hw0] at hrun
        simp only [runW_idle, runW_got, runW_admitted, runW_staged, runW_running, runW_terminated] at hrun
        have hc := hcount q
        unfold runningOn at hc
        rcases processor_failure_procCount s p rnd with hpc | hpc
        · rw [hpc]; omega
        · rw [hpc]
          by_cases hq : q = p
          · rw [hq, Function.update_same]
            exact ⟨le_refl 0, Int.natCast_nonneg _⟩
          · rw [Function.update_noteq hq]
            omega
  | skipInject w t hw0 =>
      unfold InvA heldA runningOn; dsimp only
      have hupd := sum_update_g s.workers holdW w (.staged t)
      rw [hw0] at hupd
      simp only [holdW_idle, holdW_got, holdW_admitted, holdW_staged, holdW_running, holdW_terminated] at hupd
      constructor
      · unfold heldA at hsem; omega
      · intro p
        have hrun := sum_update_g s.workers (runW p) w (.staged t)
        rw [hw0] at hrun
        simp only [runW_idle, runW_got, runW_admitted, runW_staged, runW_running, runW_terminated] at hrun
        have hc := hcount p
        unfold runningOn at hc
        omega
  | select w t p hw0 hh =>
      unfold InvA heldA runningOn; dsimp only
      have hupd := sum_update_g s.workers holdW w (.running t p)
      rw [hw0] at hupd
      simp only [holdW_idle, holdW_got, holdW_admitted, holdW_staged, holdW_running, holdW_terminated] at hupd
      constructor
      · unfold heldA at hsem; omega
      · intro q
        by_cases hq : q = p
        · rw [hq, Function.update_same]
          have hrun := sum_update_g s.workers (runW p) w (.running t p)
          rw [hw0, runW_staged, runW_running_same] at hrun
          have hc := hcount p
          unfold runningOn at hc
          omega
        · rw [Function.update_noteq hq]
          have hrun := sum_update_g s.workers (runW q) w (.running t p)
          rw [hw0, runW_staged, runW_running_ne q t p (fun h => hq h.symm)] at hrun
          have hc := hcount q
          unfold runningOn at hc
          omega
  | requeue w t hw0 hall =>
      unfold InvA heldA runningOn; dsimp only
      have hupd := sum_update_g s.workers holdW w .idle
      rw [hw0] at hupd
      simp only [holdW_idle, holdW_got, holdW_admitted, holdW_staged, holdW_running, holdW_terminated] at hupd
      constructor
      · unfold heldA at hsem; omega
      · intro p
        have hrun := sum_update_g s.workers (runW p) w .idle
        rw [hw0] at hrun
        simp only [runW_idle, runW_got, runW_admitted, runW_staged, runW_running, runW_terminated] at hrun
        have hc := hcount p
        unfold runningOn at hc
        omega
  | finish w t p hw0 =>
      unfold InvA heldA runningOn; dsimp only
      have hupd := sum_update_g s.workers holdW w .idle
      rw [hw0] at hupd
      simp only [holdW_idle, holdW_got, holdW_admitted, holdW_staged, holdW_running, holdW_terminated] at hupd
      constructor
      · unfold heldA at hsem; omega
      · intro q
        by_cases hq : q = p
        · rw [hq, Function.update_same]
          have hrun := sum_update_g s.workers (runW p) w .idle
          rw [hw0, runW_running_same, runW_idle] at hrun
          have hc := hcount p
          unfold runningOn at hc
          by_cases hpos : 0 < s.procCount p
          · rw [if_pos hpos]
            omega
          · rw [if_neg hpos]
            omega
        · rw [Function.update_noteq hq]
          have hrun := sum_update_g s.workers (runW q) w .idle
          rw [hw0, runW_running_ne q t p (fun h => hq h.symm), runW_idle] at hrun
          have hc := hcount q
          unfold runningOn at hc
          omega
  | extFail p rnd =>
      unfold InvA heldA runningOn
      rw [processor_failure_sem, processor_failure_workers]
      refine ⟨?_, ?_⟩
      · unfold heldA at hsem; exact hsem
      · intro q
        rcases processor_failure_procCount s p rnd with hpc | hpc
        · rw [hpc]
          have hc := hcount q
          unfold runningOn at hc
          exact hc
        · rw [hpc]
          by_cases hq : q = p
          · rw [hq, Function.update_same]
            exact ⟨le_refl 0, Int.natCast_nonneg _⟩
          · rw [Function.update_noteq hq]
            have hc := hcount q
            unfold runningOn at hc
            exact hc
  | repair p =>
      unfold processor_repair
      split
      · exact ⟨hsem, hcount⟩
      · exact InvA_congr rfl rfl rfl ⟨hsem, hcount⟩
  | halt =>
      exact InvA_congr rfl rfl rfl ⟨hsem, hcount⟩
  | exitWorker w hw0 hsd =>
      unfold InvA heldA runningOn; dsimp only
      have hupd := sum_update_g s.workers holdW w .terminated
      rw [hw0] at hupd
      simp only [holdW_idle, holdW_got, holdW_admitted, holdW_staged, holdW_running, holdW_terminated] at hupd
      constructor
      · unfold heldA at hsem; omega
      · intro p
        have hrun := sum_update_g s.workers (runW p) w .terminated
        rw [hw0] at hrun
        simp only [runW_idle, runW_got, runW_admitted, runW_staged, runW_running, runW_terminated] at hrun
        have hc := hcount p
        unfold runningOn at hc
        omega

theorem InvA_reach {n : Nat} {s : QState n} (h : ReachA n s) : InvA s := by
  induction h with
  | init => exact InvA_init n
  | step _ hstep ih => exact InvA_step ih hstep

end QuantumSimulator

namespace EnergyMonitorSystem

/-- Data packet of variant B, mirroring `EnergyMonitorSystem::DataPacket`
(`{int priority; bool is_critical; int station_id;}`). -/
structure DataPacket where
  priority : Int
  is_critical : Bool
  station_id : Int
deriving DecidableEq, Repr

/-- `EnergyMonitorSystem::DataPacket::operator<`: same comparison logic as
`QuantumSimulator::Task::operator<`, on packets. -/
def packetLt (a b : DataPacket) : Bool :=
  if a.is_critical != b.is_critical then !a.is_critical
  else decide (a.priority > b.priority)

/-- The key `(critical, -priority)` of a packet. -/
def packetKey (p : DataPacket) : Int × Int :=
  (if p.is_critical then 1 else 0, -p.priority)

theorem packetLt_iff_key (a b : DataPacket) :
    packetLt a b = true ↔ lexLt (packetKey a) (packetKey b) := by
  unfold packetLt packetKey lexLt
  cases ha : a.is_critical <;> cases hb : b.is_critical <;> simp [ha, hb] <;> omega

/-- Location of the single `server_handler` thread inside its loop: `idle` at
the loop head / queue wait, `got` after popping a packet, `admitted` after
`data_semaphore.wait()` and before the load read and growth check, `checked`
after the growth check (carrying the load value read) and before the
emergency check, `passed` between the emergency check and the start of
processing, `exec` while processing, `updated` after the load write and
before the shrink check, `releasing` before the final
`data_semaphore.post()`, `terminated` after observing shutdown. -/
inductive SState where
  | idle
  | got (p : DataPacket)
  | admitted (p : DataPacket)
  | checked (p : DataPacket) (load : Int)
  | passed (p : DataPacket) (load : Int)
  | exec (p : DataPacket) (load : Int)
  | updated (p : DataPacket) (newLoad : Int)
  | releasing
  | terminated
deriving DecidableEq, Repr

/-- Global state of `EnergyMonitorSystem`: the packet priority queue, the
`data_semaphore` count, `current_load`, `additional_handlers`, the emergency
and shutdown flags, and the server thread's location.  The base handler
count is the constant 2 and `max_load` the constant 100. -/
structure EState where
  data_packets : List DataPacket
  sem : Nat
  current_load : Int
  additional_handlers : Int
  emergency_mode : Bool
  shutdown : Bool
  server : SState

/-- `EnergyMonitorSystem::add_data_packet(priority, is_critical,
station_id)`: pushes the packet built from the three arguments; the station
id is a required argument, never system-assigned, and the function is
`void` (the `Unit` component). -/
def add_data_packet (s : EState) (priority : Int) (is_critical : Bool)
    (station_id : Int) : EState × Unit :=
  ({ s with data_packets := ⟨priority, is_critical, station_id⟩ :: s.data_packets }, ())

/-- `EnergyMonitorSystem::simulate_emergency()`: latches the one-way
emergency flag. -/
def simulate_emergency (s : EState) : EState :=
  { s with emergency_mode := true }

/-- `new_load` as computed at the end of processing:
`load + processing_time / 10`, clamped to `max_load = 100`. -/
def new_load (L : Int) (pt : Nat) : Int :=
  if 100 < L + ((pt / 10 : Nat) : Int) then 100 else L + ((pt / 10 : Nat) : Int)

/-- Transition labels for variant B. -/
inductive ActB where
  | push (priority : Int) (is_critical : Bool) (station_id : Int)
  | pop
  | acquire
  | growYes
  | growNo
  | emergDrop
  | emergPass
  | enterExec
  | finishExec (pt : Nat)
  | shrinkYes
  | shrinkNo
  | post
  | emergencyOn
  | halt
  | exitServer

/-- One interleaved step of `EnergyMonitorSystem`: the single
`server_handler` loop, the producing stations, `simulate_emergency` and
`stop()`.  The processing duration `pt` is a nondeterministic parameter (in
the source it is drawn from `rand()` and scaled by the current load). -/
inductive StepB : EState → ActB → EState → Prop where
  | push (s : EState) (pri : Int) (crit : Bool) (sid : Int) :
      StepB s (.push pri crit sid) (add_data_packet s pri crit sid).1
  | pop (s : EState) (p : DataPacket) (r : List DataPacket) :
      s.server = .idle → s.shutdown = false →
      popMaxQ packetLt s.data_packets = some (p, r) →
      StepB s .pop { s with data_packets := r, server := .got p }
  | acquire (s : EState) (p : DataPacket) :
      s.server = .got p → 0 < s.sem →
      StepB s .acquire { s with sem := s.sem - 1, server := .admitted p }
  | growYes (s : EState) (p : DataPacket) :
      s.server = .admitted p → 80 < s.current_load → s.additional_handlers < 3 →
      StepB s .growYes
        { s with additional_handlers := s.additional_handlers + 1,
                 sem := s.sem + 1, server := .checked p s.current_load }
  | growNo (s : EState) (p : DataPacket) :
      s.server = .admitted p →
      ¬(80 < s.current_load ∧ s.additional_handlers < 3) →
      StepB s .growNo { s with server := .checked p s.current_load }
  | emergDrop (s : EState) (p : DataPacket) (L : Int) :
      s.server = .checked p L → s.emergency_mode = true →
      3 < p.priority → p.is_critical = false →
      StepB s .emergDrop { s with sem := s.sem + 1, server := .idle }
  | emergPass (s : EState) (p : DataPacket) (L : Int) :
      s.server = .checked p L →
      ¬(s.emergency_mode = true ∧ 3 < p.priority ∧ p.is_critical = false) →
      StepB s .emergPass { s with server := .passed p L }
  | enterExec (s : EState) (p : DataPacket) (L : Int) :
      s.server = .passed p L →
      StepB s .enterExec { s with server := .exec p L }
  | finishExec (s : EState) (p : DataPacket) (L : Int) (pt : Nat) :
      s.server = .exec p L →
      StepB s (.finishExec pt)
        { s with current_load := new_load L pt,
                 server := .updated p (new_load L pt) }
  | shrinkYes (s : EState) (p : DataPacket) (NL : Int) :
      s.server = .updated p NL → NL < 50 → 0 < s.additional_handlers →
      0 < s.sem →
      StepB s .shrinkYes
        { s with additional_handlers := s.additional_handlers - 1,
                 sem := s.sem - 1, server := .releasing }
  | shrinkNo (s : EState) (p : DataPacket) (NL : Int) :
      s.server = .updated p NL → ¬(NL < 50 ∧ 0 < s.additional_handlers) →
      StepB s .shrinkNo { s with server := .releasing }
  | post (s : EState) :
      s.server = .releasing →
      StepB s .post { s with sem := s.sem + 1, server := .idle }
  | emergencyOn (s : EState) :
      StepB s .emergencyOn (simulate_emergency s)
  | halt (s : EState) :
      StepB s .halt { s with shutdown := true }
  | exitServer (s : EState) :
      s.server = .idle → s.shutdown = true →
      StepB s .exitServer { s with server := .terminated }

/-- The constructed state: semaphore at the 2 base handlers, zero load, no
additional handlers, flags down, server at the loop head. -/
def initB : EState :=
  { data_packets := [], sem := 2, current_load := 0, additional_handlers := 0,
    emergency_mode := false, shutdown := false, server := .idle }

/-- Reachability from the constructed state. -/
inductive ReachB : EState → Prop where
  | init : ReachB initB
  | step {s : EState} {a : ActB} {s' : EState} :
      ReachB s → StepB s a s' → ReachB s'

/-- Weight 1 while the server holds an admission slot (between
`data_semaphore.wait()` and the matching `post()`). -/
def holdB : SState → Nat
  | .admitted _ => 1
  | .checked _ _ => 1
  | .passed _ _ => 1
  | .exec _ _ => 1
  | .updated _ _ => 1
  | .releasing => 1
  | _ => 0

theorem holdB_idle : holdB .idle = 0 := rfl

theorem holdB_got (p : DataPacket) : holdB (.got p) = 0 := rfl

theorem holdB_admitted (p : DataPacket) : holdB (.admitted p) = 1 := rfl

theorem holdB_checked (p : DataPacket) (L : Int) : holdB (.checked p L) = 1 := rfl

theorem holdB_passed (p : DataPacket) (L : Int) : holdB (.passed p L) = 1 := rfl

theorem holdB_exec (p : DataPacket) (L : Int) : holdB (.exec p L) = 1 := rfl

theorem holdB_updated (p : DataPacket) (L : Int) : holdB (.updated p L) = 1 := rfl

theorem holdB_releasing : holdB .releasing = 1 := rfl

theorem holdB_terminated : holdB .terminated = 0 := rfl

/-- Inductive invariant of variant B: the semaphore count plus the held
slot is `base_handlers + additional_handlers`; the additional handlers stay
in `[0, 3]`; the load stays in `[0, 100]`; and a load value stored in the
server's location equals the shared `current_load`. -/
def InvB (s : EState) : Prop :=
  (s.sem : Int) + holdB s.server = 2 + s.additional_handlers ∧
  0 ≤ s.additional_handlers ∧ s.additional_handlers ≤ 3 ∧
  0 ≤ s.current_load ∧ s.current_load ≤ 100 ∧
  (∀ p L, s.server = .checked p L → L = s.current_load) ∧
  (∀ p L, s.server = .passed p L → L = s.current_load) ∧
  (∀ p L, s.server = .exec p L → L = s.current_load) ∧
  (∀ p NL, s.server = .updated p NL → NL = s.current_load)

theorem InvB_init : InvB initB := by
  unfold InvB initB
  dsimp only
  refine ⟨by rw [holdB_idle]; omega, by omega, by omega, by omega, by omega,
    ?_, ?_, ?_, ?_⟩ <;> intro p L h <;> exact absurd h (by simp)

theorem InvB_step {s s' : EState} {a : ActB}
    (hInv : InvB s) (h : StepB s a s') : InvB s' := by
  obtain ⟨hsem, ha0, ha3, hl0, hl100, hchk, hpas, hexe, hupd⟩ := hInv
  cases h with
  | push pri crit sid =>
      exact ⟨hsem, ha0, ha3, hl0, hl100, hchk, hpas, hexe, hupd⟩
  | pop p r hs hsd hq =>
      rw [hs, holdB_idle] at hsem
      refine ⟨by dsimp only; rw [holdB_got]; omega, ha0, ha3, hl0, hl100,
        ?_, ?_, ?_, ?_⟩ <;> intro p' L' h' <;> exact absurd h' (by simp)
  | acquire p hs hsempos =>
      rw [hs, holdB_got] at hsem
      refine ⟨by dsimp only; rw [holdB_admitted]; push_cast; omega, ha0, ha3, hl0, hl100,
        ?_, ?_, ?_, ?_⟩ <;> intro p' L' h' <;> exact absurd h' (by simp)
  | growYes p hs hload hroom =>
      rw [hs, holdB_admitted] at hsem
      refine ⟨by dsimp only; rw [holdB_checked]; push_cast; omega, by dsimp only; omega, by dsimp only; omega,
        hl0, hl100, ?_, ?_, ?_, ?_⟩
      · intro p' L' h'
        injection h' with h1 h2
        exact h2.symm
      all_goals intro p' L' h' <;> exact absurd h' (by simp)
  | growNo p hs hneg =>
      rw [hs, holdB_admitted] at hsem
      refine ⟨by dsimp only; rw [holdB_checked]; omega, ha0, ha3, hl0, hl100,
        ?_, ?_, ?_, ?_⟩
      · intro p' L' h'
        injection h' with h1 h2
        exact h2.symm
      all_goals intro p' L' h' <;> exact absurd h' (by simp)
  | emergDrop p L hs hem hpri hcrit =>
      rw [hs, holdB_checked] at hsem
      refine ⟨by dsimp only; rw [holdB_idle]; push_cast; omega, ha0, ha3, hl0, hl100,
        ?_, ?_, ?_, ?_⟩ <;> intro p' L' h' <;> exact absurd h' (by simp)
  | emergPass p L hs hneg =>
      rw [hs, holdB_checked] at hsem
      have hL : L = s.current_load := hchk p L hs
      refine ⟨by dsimp only; rw [holdB_passed]; omega, ha0, ha3, hl0, hl100,
        ?_, ?_, ?_, ?_⟩
      · intro p' L' h'; exact absurd h' (by simp)
      · intro p' L' h'
        injection h' with h1 h2
        rw [← h2]; exact hL
      all_goals intro p' L' h' <;> exact absurd h' (by simp)
  | enterExec p L hs =>
      rw [hs, holdB_passed] at hsem
      have hL : L = s.current_load := hpas p L hs
      refine ⟨by dsimp only; rw [holdB_exec]; omega, ha0, ha3, hl0, hl100,
        ?_, ?_, ?_, ?_⟩
      · intro p' L' h'; exact absurd h' (by simp)
      · intro p' L' h'; exact absurd h' (by simp)
      · intro p' L' h'
        injection h' with h1 h2
        rw [← h2]; exact hL
      · intro p' L' h'; exact absurd h' (by simp)
  | finishExec p L pt hs =>
      rw [hs, holdB_exec] at hsem
      have hL : L = s.current_load := hexe p L hs
      have hnl0 : 0 ≤ new_load L pt := by
        unfold new_load; split <;> omega
      have hnl100 : new_load L pt ≤ 100 := by
        unfold new_load; split <;> omega
      refine ⟨by dsimp only; rw [holdB_updated]; omega, ha0, ha3, hnl0, hnl100,
        ?_, ?_, ?_, ?_⟩
      · intro p' L' h'; exact absurd h' (by simp)
      · intro p' L' h'; exact absurd h' (by simp)
      · intro p' L' h'; exact absurd h' (by simp)
      · intro p' L' h'
        injection h' with h1 h2
        rw [← h2]
  | shrinkYes p NL hs hlow hadd hsempos =>
      rw [hs, holdB_updated] at hsem
      refine ⟨by dsimp only; rw [holdB_releasing]; push_cast; omega, by dsimp only; omega, by dsimp only; omega,
        hl0, hl100, ?_, ?_, ?_, ?_⟩ <;> intro p' L' h' <;> exact absurd h' (by simp)
  | shrinkNo p NL hs hneg =>
      rw [hs, holdB_updated] at hsem
      refine ⟨by dsimp only; rw [holdB_releasing]; omega, ha0, ha3, hl0, hl100,
        ?_, ?_, ?_, ?_⟩ <;> intro p' L' h' <;> exact absurd h' (by simp)
  | post hs =>
      rw [hs, holdB_releasing] at hsem
      refine ⟨by dsimp only; rw [holdB_idle]; push_cast; omega, ha0, ha3, hl0, hl100,
        ?_, ?_, ?_, ?_⟩ <;> intro p' L' h' <;> exact absurd h' (by simp)
  | emergencyOn =>
      exact ⟨hsem, ha0, ha3, hl0, hl100, hchk, hpas, hexe, hupd⟩
  | halt =>
      exact ⟨hsem, ha0, ha3, hl0, hl100, hchk, hpas, hexe, hupd⟩
  | exitServer hs hsd =>
      rw [hs, holdB_idle] at hsem
      refine ⟨by dsimp only; rw [holdB_terminated]; omega, ha0, ha3, hl0, hl100,
        ?_, ?_, ?_, ?_⟩ <;> intro p' L' h' <;> exact absurd h' (by simp)

theorem InvB_reach {s : EState} (h : ReachB s) : InvB s := by
  induction h with
  | init => exact InvB_init
  | step _ hstep ih => exact InvB_step ih hstep

end EnergyMonitorSystem

namespace QuantumSimulator

/-- The queue content produced by the three pushes of the concrete ordering
scenario: `{id=1,pri=1,crit=false}`, `{id=2,pri=5,crit=true}`,
`{id=3,pri=1,crit=false}`, in that order. -/
def scenarioState : QState 0 :=
  (add_task (add_task (add_task (initA 0) 1 false 1).1 5 true 2).1 1 false 3).1

theorem runningA_le_heldA (s : QState n) : runningA s ≤ heldA s := by
  unfold runningA heldA
  refine Finset.sum_le_sum ?_
  intro w _
  cases h : s.workers w <;> simp [isRunW, holdW]

theorem heldA_all_idle {n : Nat} {s : QState n}
    (h : ∀ w, s.workers w = .idle ∨ s.workers w = .terminated) :
    heldA s = 0 := by
  unfold heldA
  refine Finset.sum_eq_zero ?_
  intro w _
  rcases h w with hw | hw <;> rw [hw] <;> rfl

theorem runningOn_all_idle {n : Nat} {s : QState n} (p : Fin 4)
    (h : ∀ w, s.workers w = .idle ∨ s.workers w = .terminated) :
    runningOn s p = 0 := by
  unfold runningOn
  refine Finset.sum_eq_zero ?_
  intro w _
  rcases h w with hw | hw <;> rw [hw] <;> rfl

end QuantumSimulator

/-- Claim C1: items are dequeued in decreasing `(critical, -priority)`
lexicographic order — the comparison operators of both variants coincide
with the lexicographic key order, the full pop sequence of any queue
content is a permutation of it in which no later element is strictly above
an earlier one (ties broken arbitrarily but consistently), and the concrete
scenario (ids 1,2,3 with priorities 1,5,1 and criticality false,true,false
pushed in that order) pops id 2 first and then ids 3 and 1. -/
theorem C1_queue_ordering :
    (∀ a b : QuantumSimulator.Task,
      QuantumSimulator.taskLt a b = true ↔
        lexLt (QuantumSimulator.taskKey a) (QuantumSimulator.taskKey b)) ∧
    (∀ a b : EnergyMonitorSystem.DataPacket,
      EnergyMonitorSystem.packetLt a b = true ↔
        lexLt (EnergyMonitorSystem.packetKey a) (EnergyMonitorSystem.packetKey b)) ∧
    (∀ l : List QuantumSimulator.Task,
      List.Perm (drainQ QuantumSimulator.taskLt l) l) ∧
    (∀ l : List QuantumSimulator.Task,
      (drainQ QuantumSimulator.taskLt l).Pairwise
        (fun a b => QuantumSimulator.taskLt a b = false)) ∧
    (drainQ QuantumSimulator.taskLt QuantumSimulator.scenarioState.tasks).map
        QuantumSimulator.Task.task_id = [2, 3, 1] :=
  ⟨QuantumSimulator.taskLt_iff_key, EnergyMonitorSystem.packetLt_iff_key,
    QuantumSimulator.drainQ_perm, QuantumSimulator.drainQ_pairwise, by decide⟩

/-- Claim C2: at every reachable state, `held ≤ capacity` for the admission
gate and the number of simultaneously executing items never exceeds the
capacity — the fixed 4 of variant A for any worker count and any injected
failures, and `2 + additional_handlers ≤ 2 + 3` in variant B under capacity
growth and shrink. -/
theorem C2_admission_bound :
    (∀ (n : Nat) (s : QuantumSimulator.QState n), QuantumSimulator.ReachA n s →
      s.sem + QuantumSimulator.heldA s = 4 ∧
      QuantumSimulator.heldA s ≤ 4 ∧
      QuantumSimulator.runningA s ≤ 4) ∧
    (∀ s : EnergyMonitorSystem.EState, EnergyMonitorSystem.ReachB s →
      (s.sem : Int) + EnergyMonitorSystem.holdB s.server
          = 2 + s.additional_handlers ∧
      (EnergyMonitorSystem.holdB s.server : Int) ≤ 2 + s.additional_handlers ∧
      0 ≤ s.additional_handlers ∧ s.additional_handlers ≤ 3) := by
  constructor
  · intro n s hreach
    obtain ⟨hsem, _⟩ := QuantumSimulator.InvA_reach hreach
    have hrun := QuantumSimulator.runningA_le_heldA s
    exact ⟨hsem, by omega, by omega⟩
  · intro s hreach
    obtain ⟨hsem, ha0, ha3, _⟩ := EnergyMonitorSystem.InvB_reach hreach
    exact ⟨hsem, by omega, ha0, ha3⟩

/-- Claim C2 witness: the bounds hold at a concrete reachable state, the
constructed one of each variant. -/
theorem C2_admission_bound_witness :
    QuantumSimulator.heldA (QuantumSimulator.initA 10) ≤ 4 ∧
    (EnergyMonitorSystem.holdB (EnergyMonitorSystem.initB).server : Int)
      ≤ 2 + (EnergyMonitorSystem.initB).additional_handlers :=
  ⟨(C2_admission_bound.1 10 _ QuantumSimulator.ReachA.init).2.1,
    (C2_admission_bound.2 _ EnergyMonitorSystem.ReachB.init).2.1⟩

/-- Claim C6: every reachable state has non-negative per-processor in-flight
counts (even after a concurrent failure has zeroed them), and at quiescence
(all workers back at the loop head or terminated) every in-flight count is
zero, no admission slot is held, and the semaphore is back at its full
capacity — nothing is leaked; likewise in variant B the idle server holds
no slot and the semaphore equals `base + additional` handlers. -/
theorem C6_no_leak :
    (∀ (n : Nat) (s : QuantumSimulator.QState n), QuantumSimulator.ReachA n s →
      (∀ p, 0 ≤ s.procCount p) ∧
      ((∀ w, s.workers w = .idle ∨ s.workers w = .terminated) →
        (∀ p, s.procCount p = 0) ∧
        QuantumSimulator.heldA s = 0 ∧ s.sem = 4)) ∧
    (∀ s : EnergyMonitorSystem.EState, EnergyMonitorSystem.ReachB s →
      (s.server = .idle ∨ s.server = .terminated) →
      EnergyMonitorSystem.holdB s.server = 0 ∧
      (s.sem : Int) = 2 + s.additional_handlers) := by
  constructor
  · intro n s hreach
    obtain ⟨hsem, hcount⟩ := QuantumSimulator.InvA_reach hreach
    refine ⟨fun p => (hcount p).1, ?_⟩
    intro hidle
    have hheld := QuantumSimulator.heldA_all_idle hidle
    refine ⟨?_, hheld, by omega⟩
    intro p
    have hrun := QuantumSimulator.runningOn_all_idle p hidle
    have hc := hcount p
    rw [hrun] at hc
    omega
  · intro s hreach hidle
    obtain ⟨hsem, _⟩ := EnergyMonitorSystem.InvB_reach hreach
    have hhold : EnergyMonitorSystem.holdB s.server = 0 := by
      rcases hidle with h | h <;> rw [h] <;> rfl
    rw [hhold] at hsem
    exact ⟨hhold, by push_cast at hsem ⊢; omega⟩

/-- Claim C6 witness: the quiescence conclusion at a concrete reachable
quiescent state, the constructed one. -/
theorem C6_no_leak_witness :
    (QuantumSimulator.initA 10).sem = 4 ∧
    ((EnergyMonitorSystem.initB).sem : Int)
      = 2 + (EnergyMonitorSystem.initB).additional_handlers :=
  ⟨((C6_no_leak.1 10 _ QuantumSimulator.ReachA.init).2
      (fun _ => Or.inl rfl)).2.2,
    (C6_no_leak.2 _ EnergyMonitorSystem.ReachB.init (Or.inl rfl)).2⟩

namespace EnergyMonitorSystem

theorem new_load_eq_min (L : Int) (pt : Nat) :
    new_load L pt = min 100 (L + ((pt / 10 : Nat) : Int)) := by
  unfold new_load
  rw [min_def]
  split <;> split <;> omega

/-- The load write after processing is exactly the clamped increment of the
shared load by `processing_time / 10`. -/
theorem load_update_exact {s s' : EState} {p : DataPacket} {L : Int} {pt : Nat}
    (hre : ReachB s) (hstep : StepB s (.finishExec pt) s')
    (hs : s.server = .exec p L) :
    s'.current_load = min 100 (s.current_load + ((pt / 10 : Nat) : Int)) ∧
    s'.server = .updated p s'.current_load := by
  obtain ⟨_, _, _, _, _, _, _, hexe, _⟩ := InvB_reach hre
  cases hstep with
  | finishExec p0 L0 pt0 hs0 =>
    rw [hs] at hs0
    injection hs0 with h1 h2
    rw [← h1, ← h2]
    have hL : L = s.current_load := hexe p L hs
    constructor
    · dsimp only
      rw [new_load_eq_min, hL]
    · dsimp only

/-- At the post-admission check point, capacity grows (with one immediate
semaphore wake) precisely when the observed load exceeds 80 and fewer than
3 additional handlers are active. -/
theorem grow_check_exact {s s' : EState} {a : ActB} {p : DataPacket}
    (hstep : StepB s a s') (hs : s.server = .admitted p) :
    (80 < s.current_load ∧ s.additional_handlers < 3 →
      s'.server = s.server ∨
      (s'.server = .checked p s.current_load ∧
        s'.additional_handlers = s.additional_handlers + 1 ∧
        s'.sem = s.sem + 1)) ∧
    (¬(80 < s.current_load ∧ s.additional_handlers < 3) →
      s'.additional_handlers = s.additional_handlers) := by
  cases hstep with
  | push pri crit sid => exact ⟨fun _ => Or.inl rfl, fun _ => rfl⟩
  | pop p0 r hs0 hsd hq => rw [hs] at hs0; exact absurd hs0 (by simp)
  | acquire p0 hs0 hsempos => rw [hs] at hs0; exact absurd hs0 (by simp)
  | growYes p0 hs0 hl hr =>
      rw [hs] at hs0
      injection hs0 with h1
      constructor
      · intro _
        right
        rw [← h1]
        exact ⟨rfl, rfl, rfl⟩
      · intro hneg
        exact absurd ⟨hl, hr⟩ hneg
  | growNo p0 hs0 hneg =>
      constructor
      · intro htrig
        exact absurd htrig hneg
      · intro _
        rfl
  | emergDrop p0 L0 hs0 hem hpri hcrit => rw [hs] at hs0; exact absurd hs0 (by simp)
  | emergPass p0 L0 hs0 hneg => rw [hs] at hs0; exact absurd hs0 (by simp)
  | enterExec p0 L0 hs0 => rw [hs] at hs0; exact absurd hs0 (by simp)
  | finishExec p0 L0 pt0 hs0 => rw [hs] at hs0; exact absurd hs0 (by simp)
  | shrinkYes p0 NL0 hs0 hlow hadd hsempos => rw [hs] at hs0; exact absurd hs0 (by simp)
  | shrinkNo p0 NL0 hs0 hneg => rw [hs] at hs0; exact absurd hs0 (by simp)
  | post hs0 => rw [hs] at hs0; exact absurd hs0 (by simp)
  | emergencyOn => exact ⟨fun _ => Or.inl rfl, fun _ => rfl⟩
  | halt => exact ⟨fun _ => Or.inl rfl, fun _ => rfl⟩
  | exitServer hs0 hsd => rw [hs] at hs0; exact absurd hs0 (by simp)

/-- `additional_handlers` increases only through the growth branch of the
check, and then by exactly one, with one immediate semaphore wake. -/
theorem grow_only_at_check {s s' : EState} {a : ActB}
    (hstep : StepB s a s')
    (hinc : s.additional_handlers < s'.additional_handlers) :
    ∃ p, s.server = .admitted p ∧ 80 < s.current_load ∧
      s.additional_handlers < 3 ∧
      s'.additional_handlers = s.additional_handlers + 1 ∧
      s'.sem = s.sem + 1 := by
  cases hstep with
  | push pri crit sid => exact absurd hinc (lt_irrefl _)
  | pop p0 r hs0 hsd hq => exact absurd hinc (lt_irrefl _)
  | acquire p0 hs0 hsempos => exact absurd hinc (lt_irrefl _)
  | growYes p0 hs0 hl hr => exact ⟨p0, hs0, hl, hr, rfl, rfl⟩
  | growNo p0 hs0 hneg => exact absurd hinc (lt_irrefl _)
  | emergDrop p0 L0 hs0 hem hpri hcrit => exact absurd hinc (lt_irrefl _)
  | emergPass p0 L0 hs0 hneg => exact absurd hinc (lt_irrefl _)
  | enterExec p0 L0 hs0 => exact absurd hinc (lt_irrefl _)
  | finishExec p0 L0 pt0 hs0 => exact absurd hinc (lt_irrefl _)
  | shrinkYes p0 NL0 hs0 hlow hadd hsempos =>
      dsimp only at hinc
      exact absurd hinc (by omega)
  | shrinkNo p0 NL0 hs0 hneg => exact absurd hinc (lt_irrefl _)
  | post hs0 => exact absurd hinc (lt_irrefl _)
  | emergencyOn => exact absurd hinc (lt_irrefl _)
  | halt => exact absurd hinc (lt_irrefl _)
  | exitServer hs0 hsd => exact absurd hinc (lt_irrefl _)

/-- `additional_handlers` decreases only through the shrink branch after the
load write, exactly when the just-written load is below 50 and an
additional handler is active, consuming one admission slot. -/
theorem shrink_only_at_check {s s' : EState} {a : ActB}
    (hre : ReachB s) (hstep : StepB s a s')
    (hdec : s'.additional_handlers < s.additional_handlers) :
    ∃ p, s.server = .updated p s.current_load ∧ s.current_load < 50 ∧
      0 < s.additional_handlers ∧
      s'.additional_handlers = s.additional_handlers - 1 ∧
      s'.sem + 1 = s.sem := by
  obtain ⟨_, _, _, _, _, _, _, _, hupd⟩ := InvB_reach hre
  cases hstep with
  | push pri crit sid => exact absurd hdec (lt_irrefl _)
  | pop p0 r hs0 hsd hq => exact absurd hdec (lt_irrefl _)
  | acquire p0 hs0 hsempos => exact absurd hdec (lt_irrefl _)
  | growYes p0 hs0 hl hr =>
      dsimp only at hdec
      exact absurd hdec (by omega)
  | growNo p0 hs0 hneg => exact absurd hdec (lt_irrefl _)
  | emergDrop p0 L0 hs0 hem hpri hcrit => exact absurd hdec (lt_irrefl _)
  | emergPass p0 L0 hs0 hneg => exact absurd hdec (lt_irrefl _)
  | enterExec p0 L0 hs0 => exact absurd hdec (lt_irrefl _)
  | finishExec p0 L0 pt0 hs0 => exact absurd hdec (lt_irrefl _)
  | shrinkYes p0 NL0 hs0 hlow hadd hsempos =>
      have hNL : NL0 = s.current_load := hupd p0 NL0 hs0
      rw [hNL] at hs0 hlow
      exact ⟨p0, hs0, hlow, hadd, rfl, by dsimp only; omega⟩
  | shrinkNo p0 NL0 hs0 hneg => exact absurd hdec (lt_irrefl _)
  | post hs0 => exact absurd hdec (lt_irrefl _)
  | emergencyOn => exact absurd hdec (lt_irrefl _)
  | halt => exact absurd hdec (lt_irrefl _)
  | exitServer hs0 hsd => exact absurd hdec (lt_irrefl _)

/-- At the post-write check point, capacity shrinks precisely when the
just-written load is below 50 and at least one additional handler is
active. -/
theorem shrink_check_exact {s s' : EState} {a : ActB} {p : DataPacket} {NL : Int}
    (hstep : StepB s a s') (hs : s.server = .updated p NL) :
    (NL < 50 ∧ 0 < s.additional_handlers →
      s'.server = s.server ∨
      (s'.server = .releasing ∧
        s'.additional_handlers = s.additional_handlers - 1 ∧
        s'.sem + 1 = s.sem)) ∧
    (¬(NL < 50 ∧ 0 < s.additional_handlers) →
      s'.additional_handlers = s.additional_handlers) := by
  cases hstep with
  | push pri crit sid => exact ⟨fun _ => Or.inl rfl, fun _ => rfl⟩
  | pop p0 r hs0 hsd hq => rw [hs] at hs0; exact absurd hs0 (by simp)
  | acquire p0 hs0 hsempos => rw [hs] at hs0; exact absurd hs0 (by simp)
  | growYes p0 hs0 hl hr => rw [hs] at hs0; exact absurd hs0 (by simp)
  | growNo p0 hs0 hneg => rw [hs] at hs0; exact absurd hs0 (by simp)
  | emergDrop p0 L0 hs0 hem hpri hcrit => rw [hs] at hs0; exact absurd hs0 (by simp)
  | emergPass p0 L0 hs0 hneg => rw [hs] at hs0; exact absurd hs0 (by simp)
  | enterExec p0 L0 hs0 => rw [hs] at hs0; exact absurd hs0 (by simp)
  | finishExec p0 L0 pt0 hs0 => rw [hs] at hs0; exact absurd hs0 (by simp)
  | shrinkYes p0 NL0 hs0 hlow hadd hsempos =>
      rw [hs] at hs0
      injection hs0 with h1 h2
      constructor
      · intro _
        right
        exact ⟨rfl, rfl, by dsimp only; omega⟩
      · intro hneg
        rw [← h2] at hlow
        exact absurd ⟨hlow, hadd⟩ hneg
  | shrinkNo p0 NL0 hs0 hneg =>
      rw [hs] at hs0
      injection hs0 with h1 h2
      constructor
      · intro htrig
        rw [← h2] at hneg
        exact absurd htrig hneg
      · intro _
        rfl
  | post hs0 => rw [hs] at hs0; exact absurd hs0 (by simp)
  | emergencyOn => exact ⟨fun _ => Or.inl rfl, fun _ => rfl⟩
  | halt => exact ⟨fun _ => Or.inl rfl, fun _ => rfl⟩
  | exitServer hs0 hsd => rw [hs] at hs0; exact absurd hs0 (by simp)

end EnergyMonitorSystem

/-- Claim C7: the shared load is updated after each processed item to exactly
`min(100, load + processing_time/10)` and always stays in `[0,100]`;
capacity grows (one additional handler plus one immediate semaphore wake)
exactly when the observed load exceeds 80 and fewer than 3 additional
handlers are active, and shrinks exactly when the just-written load is
below 50 and at least one additional handler is active. -/
theorem C7_load_and_elastic_capacity :
    (∀ s : EnergyMonitorSystem.EState, EnergyMonitorSystem.ReachB s →
      0 ≤ s.current_load ∧ s.current_load ≤ 100) ∧
    (∀ (s s' : EnergyMonitorSystem.EState)
        (p : EnergyMonitorSystem.DataPacket) (L : Int) (pt : Nat),
      EnergyMonitorSystem.ReachB s →
      EnergyMonitorSystem.StepB s (.finishExec pt) s' →
      s.server = .exec p L →
      s'.current_load = min 100 (s.current_load + ((pt / 10 : Nat) : Int)) ∧
      s'.server = .updated p s'.current_load) ∧
    (∀ (s s' : EnergyMonitorSystem.EState) (a : EnergyMonitorSystem.ActB)
        (p : EnergyMonitorSystem.DataPacket),
      EnergyMonitorSystem.StepB s a s' → s.server = .admitted p →
      (80 < s.current_load ∧ s.additional_handlers < 3 →
        s'.server = s.server ∨
        (s'.server = .checked p s.current_load ∧
          s'.additional_handlers = s.additional_handlers + 1 ∧
          s'.sem = s.sem + 1)) ∧
      (¬(80 < s.current_load ∧ s.additional_handlers < 3) →
        s'.additional_handlers = s.additional_handlers)) ∧
    (∀ (s s' : EnergyMonitorSystem.EState) (a : EnergyMonitorSystem.ActB),
      EnergyMonitorSystem.StepB s a s' →
      s.additional_handlers < s'.additional_handlers →
      ∃ p, s.server = .admitted p ∧ 80 < s.current_load ∧
        s.additional_handlers < 3 ∧
        s'.additional_handlers = s.additional_handlers + 1 ∧
        s'.sem = s.sem + 1) ∧
    (∀ (s s' : EnergyMonitorSystem.EState) (a : EnergyMonitorSystem.ActB),
      EnergyMonitorSystem.ReachB s → EnergyMonitorSystem.StepB s a s' →
      s'.additional_handlers < s.additional_handlers →
      ∃ p, s.server = .updated p s.current_load ∧ s.current_load < 50 ∧
        0 < s.additional_handlers ∧
        s'.additional_handlers = s.additional_handlers - 1 ∧
        s'.sem + 1 = s.sem) ∧
    (∀ (s s' : EnergyMonitorSystem.EState) (a : EnergyMonitorSystem.ActB)
        (p : EnergyMonitorSystem.DataPacket) (NL : Int),
      EnergyMonitorSystem.StepB s a s' → s.server = .updated p NL →
      (NL < 50 ∧ 0 < s.additional_handlers →
        s'.server = s.server ∨
        (s'.server = .releasing ∧
          s'.additional_handlers = s.additional_handlers - 1 ∧
          s'.sem + 1 = s.sem)) ∧
      (¬(NL < 50 ∧ 0 < s.additional_handlers) →
        s'.additional_handlers = s.additional_handlers)) := by
  refine ⟨?_, ?_, ?_, ?_, ?_, ?_⟩
  · intro s hre
    obtain ⟨_, _, _, hl0, hl100, _⟩ := EnergyMonitorSystem.InvB_reach hre
    exact ⟨hl0, hl100⟩
  · intro s s' p L pt hre hstep hs
    exact EnergyMonitorSystem.load_update_exact hre hstep hs
  · intro s s' a p hstep hs
    exact EnergyMonitorSystem.grow_check_exact hstep hs
  · intro s s' a hstep hinc
    exact EnergyMonitorSystem.grow_only_at_check hstep hinc
  · intro s s' a hre hstep hdec
    exact EnergyMonitorSystem.shrink_only_at_check hre hstep hdec
  · intro s s' a p NL hstep hs
    exact EnergyMonitorSystem.shrink_check_exact hstep hs

namespace EnergyMonitorSystem

/-- The emergency flag is a one-way latch. -/
theorem emergency_latch {s s' : EState} {a : ActB} (hstep : StepB s a s')
    (hem : s.emergency_mode = true) : s'.emergency_mode = true := by
  cases hstep <;> first | rfl | exact hem

/-- A non-critical packet with priority above 3 whose emergency check runs
with the emergency flag set is dropped: the server returns to the loop
head, the admission slot is released, and the packet is neither requeued
nor executed. -/
theorem emergency_check_drop {s s' : EState} {a : ActB} {p : DataPacket}
    {L : Int} (hstep : StepB s a s') (hs : s.server = .checked p L)
    (hem : s.emergency_mode = true) (hpri : 3 < p.priority)
    (hcrit : p.is_critical = false) :
    s'.server = s.server ∨
    (s'.server = .idle ∧ s'.sem = s.sem + 1 ∧
      s'.data_packets = s.data_packets ∧ s'.current_load = s.current_load) := by
  cases hstep with
  | push pri crit sid => exact Or.inl rfl
  | pop p0 r hs0 hsd hq => rw [hs] at hs0; exact absurd hs0 (by simp)
  | acquire p0 hs0 hsempos => rw [hs] at hs0; exact absurd hs0 (by simp)
  | growYes p0 hs0 hl hr => rw [hs] at hs0; exact absurd hs0 (by simp)
  | growNo p0 hs0 hneg => rw [hs] at hs0; exact absurd hs0 (by simp)
  | emergDrop p0 L0 hs0 hem0 hpri0 hcrit0 =>
      exact Or.inr ⟨rfl, rfl, rfl, rfl⟩
  | emergPass p0 L0 hs0 hneg =>
      rw [hs] at hs0
      injection hs0 with h1 h2
      rw [← h1] at hneg
      exact absurd ⟨hem, hpri, hcrit⟩ hneg
  | enterExec p0 L0 hs0 => rw [hs] at hs0; exact absurd hs0 (by simp)
  | finishExec p0 L0 pt0 hs0 => rw [hs] at hs0; exact absurd hs0 (by simp)
  | shrinkYes p0 NL0 hs0 hlow hadd hsempos => rw [hs] at hs0; exact absurd hs0 (by simp)
  | shrinkNo p0 NL0 hs0 hneg => rw [hs] at hs0; exact absurd hs0 (by simp)
  | post hs0 => rw [hs] at hs0; exact absurd hs0 (by simp)
  | emergencyOn => exact Or.inl rfl
  | halt => exact Or.inl rfl
  | exitServer hs0 hsd => rw [hs] at hs0; exact absurd hs0 (by simp)

/-- A critical packet always passes the emergency check: it is never
dropped, in any mode. -/
theorem emergency_check_critical {s s' : EState} {a : ActB} {p : DataPacket}
    {L : Int} (hstep : StepB s a s') (hs : s.server = .checked p L)
    (hcrit : p.is_critical = true) :
    s'.server = s.server ∨ s'.server = .passed p L := by
  cases hstep with
  | push pri crit sid => exact Or.inl rfl
  | pop p0 r hs0 hsd hq => rw [hs] at hs0; exact absurd hs0 (by simp)
  | acquire p0 hs0 hsempos => rw [hs] at hs0; exact absurd hs0 (by simp)
  | growYes p0 hs0 hl hr => rw [hs] at hs0; exact absurd hs0 (by simp)
  | growNo p0 hs0 hneg => rw [hs] at hs0; exact absurd hs0 (by simp)
  | emergDrop p0 L0 hs0 hem0 hpri0 hcrit0 =>
      rw [hs] at hs0
      injection hs0 with h1 h2
      rw [← h1] at hcrit0
      rw [hcrit] at hcrit0
      exact absurd hcrit0 (by simp)
  | emergPass p0 L0 hs0 hneg =>
      rw [hs] at hs0
      injection hs0 with h1 h2
      rw [← h1, ← h2]
      exact Or.inr rfl
  | enterExec p0 L0 hs0 => rw [hs] at hs0; exact absurd hs0 (by simp)
  | finishExec p0 L0 pt0 hs0 => rw [hs] at hs0; exact absurd hs0 (by simp)
  | shrinkYes p0 NL0 hs0 hlow hadd hsempos => rw [hs] at hs0; exact absurd hs0 (by simp)
  | shrinkNo p0 NL0 hs0 hneg => rw [hs] at hs0; exact absurd hs0 (by simp)
  | post hs0 => rw [hs] at hs0; exact absurd hs0 (by simp)
  | emergencyOn => exact Or.inl rfl
  | halt => exact Or.inl rfl
  | exitServer hs0 hsd => rw [hs] at hs0; exact absurd hs0 (by simp)

/-- A packet that advances past an emergency-mode check is critical or of
priority at most 3. -/
theorem emergency_pass_bound {s s' : EState} {a : ActB} {p : DataPacket}
    {L : Int} (hstep : StepB s a s') (hs : s.server = .checked p L)
    (hem : s.emergency_mode = true) (hpass : s'.server = .passed p L) :
    p.is_critical = true ∨ p.priority ≤ 3 := by
  by_cases hc : p.is_critical = true
  · exact Or.inl hc
  · by_cases hp : p.priority ≤ 3
    · exact Or.inr hp
    · have hcf : p.is_critical = false := by
        cases h : p.is_critical
        · rfl
        · exact absurd h hc
      rcases emergency_check_drop hstep hs hem (by omega) hcf with h | h
      · rw [hpass, hs] at h
        exact absurd h (by simp)
      · rw [hpass] at h
        exact absurd h.1 (by simp)

/-- The non-critical priority-5 packet of the emergency race. -/
def emPacket : DataPacket := ⟨5, false, 7⟩

/-- The state just after emergency activation, with the server already past
the emergency check (performed while the flag was still down) and about to
process `emPacket`. -/
def emS6 : EState :=
  { data_packets := [], sem := 1, current_load := 0, additional_handlers := 0,
    emergency_mode := true, shutdown := false, server := .passed emPacket 0 }

/-- The successor of `emS6` in which `emPacket` is executing. -/
def emS7 : EState := { emS6 with server := .exec emPacket 0 }

theorem reach_emS6 : ReachB emS6 := by
  have h1 : ReachB (add_data_packet initB 5 false 7).1 :=
    ReachB.step ReachB.init (StepB.push initB 5 false 7)
  have h2 := ReachB.step h1 (StepB.pop _ emPacket [] rfl rfl rfl)
  have h3 := ReachB.step h2 (StepB.acquire _ emPacket rfl (by decide))
  have h4 := ReachB.step h3 (StepB.growNo _ emPacket rfl (by decide))
  have h5 := ReachB.step h4 (StepB.emergPass _ emPacket 0 rfl (by decide))
  exact ReachB.step h5 (StepB.emergencyOn _)

end EnergyMonitorSystem

/-- Claim C3 counterexample: the emergency check and the start of processing
are distinct instants, so a non-critical priority-5 packet checked while
the flag was down enters execution after `simulate_emergency` has latched
the flag — with emergency mode active, a non-critical item of priority
greater than 3 is observed entering execution, against the claim. -/
theorem C3_counterexample :
    ∃ (s s' : EnergyMonitorSystem.EState)
      (p : EnergyMonitorSystem.DataPacket),
      EnergyMonitorSystem.ReachB s ∧
      EnergyMonitorSystem.StepB s .enterExec s' ∧
      EnergyMonitorSystem.ReachB s' ∧
      s.emergency_mode = true ∧ 3 < p.priority ∧ p.is_critical = false ∧
      s.server = .passed p 0 ∧ s'.server = .exec p 0 := by
  have hstep : EnergyMonitorSystem.StepB EnergyMonitorSystem.emS6 .enterExec
      EnergyMonitorSystem.emS7 :=
    EnergyMonitorSystem.StepB.enterExec EnergyMonitorSystem.emS6
      EnergyMonitorSystem.emPacket 0 rfl
  exact ⟨EnergyMonitorSystem.emS6, EnergyMonitorSystem.emS7,
    EnergyMonitorSystem.emPacket, EnergyMonitorSystem.reach_emS6, hstep,
    EnergyMonitorSystem.ReachB.step EnergyMonitorSystem.reach_emS6 hstep,
    rfl, by decide, rfl, rfl, rfl⟩

/-- Claim C3 (amended): once emergency mode is active, every non-critical
item with priority greater than 3 whose emergency check occurs after
activation is abandoned post-admission — the server drops it, releases the
admission slot, and neither requeues nor executes it; an item already past
its check may still enter execution.  Critical items always pass the check
regardless of mode and priority, any item passing an emergency-mode check
is critical or of priority at most 3, and the emergency flag is a one-way
latch. -/
theorem C3_emergency_shedding_amended :
    (∀ (s s' : EnergyMonitorSystem.EState) (a : EnergyMonitorSystem.ActB)
        (p : EnergyMonitorSystem.DataPacket) (L : Int),
      EnergyMonitorSystem.StepB s a s' → s.server = .checked p L →
      s.emergency_mode = true → 3 < p.priority → p.is_critical = false →
      s'.server = s.server ∨
      (s'.server = .idle ∧ s'.sem = s.sem + 1 ∧
        s'.data_packets = s.data_packets ∧
        s'.current_load = s.current_load)) ∧
    (∀ (s s' : EnergyMonitorSystem.EState) (a : EnergyMonitorSystem.ActB)
        (p : EnergyMonitorSystem.DataPacket) (L : Int),
      EnergyMonitorSystem.StepB s a s' → s.server = .checked p L →
      p.is_critical = true →
      s'.server = s.server ∨ s'.server = .passed p L) ∧
    (∀ (s s' : EnergyMonitorSystem.EState) (a : EnergyMonitorSystem.ActB)
        (p : EnergyMonitorSystem.DataPacket) (L : Int),
      EnergyMonitorSystem.StepB s a s' → s.server = .checked p L →
      s.emergency_mode = true → s'.server = .passed p L →
      p.is_critical = true ∨ p.priority ≤ 3) ∧
    (∀ (s s' : EnergyMonitorSystem.EState) (a : EnergyMonitorSystem.ActB),
      EnergyMonitorSystem.StepB s a s' → s.emergency_mode = true →
      s'.emergency_mode = true) :=
  ⟨fun _ _ _ _ _ hstep hs hem hpri hcrit =>
      EnergyMonitorSystem.emergency_check_drop hstep hs hem hpri hcrit,
    fun _ _ _ _ _ hstep hs hcrit =>
      EnergyMonitorSystem.emergency_check_critical hstep hs hcrit,
    fun _ _ _ _ _ hstep hs hem hpass =>
      EnergyMonitorSystem.emergency_pass_bound hstep hs hem hpass,
    fun _ _ _ hstep hem => EnergyMonitorSystem.emergency_latch hstep hem⟩

namespace EnergyMonitorSystem

/-- A state whose server is at the emergency check with the flag set. -/
def emCheckState : EState :=
  { data_packets := [], sem := 1, current_load := 0, additional_handlers := 0,
    emergency_mode := true, shutdown := false, server := .checked emPacket 0 }

/-- The drop successor of `emCheckState`. -/
def emDropTarget : EState :=
  { emCheckState with sem := emCheckState.sem + 1, server := .idle }

end EnergyMonitorSystem

/-- Claim C3 witness: the amended drop characterization applied at the
concrete emergency-mode check of the priority-5 non-critical packet. -/
theorem C3_emergency_shedding_amended_witness :
    EnergyMonitorSystem.emDropTarget.server = EnergyMonitorSystem.emCheckState.server ∨
    (EnergyMonitorSystem.emDropTarget.server = .idle ∧
      EnergyMonitorSystem.emDropTarget.sem = EnergyMonitorSystem.emCheckState.sem + 1 ∧
      EnergyMonitorSystem.emDropTarget.data_packets
        = EnergyMonitorSystem.emCheckState.data_packets ∧
      EnergyMonitorSystem.emDropTarget.current_load
        = EnergyMonitorSystem.emCheckState.current_load) :=
  C3_emergency_shedding_amended.1 EnergyMonitorSystem.emCheckState
    EnergyMonitorSystem.emDropTarget .emergDrop EnergyMonitorSystem.emPacket 0
    (EnergyMonitorSystem.StepB.emergDrop EnergyMonitorSystem.emCheckState
      EnergyMonitorSystem.emPacket 0 rfl rfl (by decide) rfl)
    rfl rfl (by decide) rfl

namespace QuantumSimulator

/-- A worker holds task `t` while it is anywhere between its pop and the
end of its loop iteration. -/
def holdsTask (ws : WState) (t : Task) : Prop :=
  ws = .got t ∨ ws = .admitted t ∨ ws = .staged t ∨ ∃ p, ws = .running t p

theorem holdsTask_ne_idle {ws : WState} {t : Task} (h : holdsTask ws t) :
    ws ≠ .idle := by
  rcases h with h | h | h | ⟨p, h⟩ <;> rw [h] <;> simp

theorem processor_repair_workers (s : QState n) (p : Fin 4) :
    (processor_repair s p).workers = s.workers := by
  unfold processor_repair; split <;> rfl

/-- A worker that held a task and is back at the loop head after one step
either took the no-healthy-processor requeue branch — pushing the very same
task back and releasing its admission slot — or completed execution via the
finish branch, which releases the slot and leaves the queue unchanged. -/
theorem requeue_sole {n : Nat} {s s' : QState n} {a : ActA n} {w : Fin n}
    {t : Task} (hstep : StepA n s a s') (hold : holdsTask (s.workers w) t)
    (hidle : s'.workers w = .idle) :
    (a = .requeue w ∧ (∀ p, s.healthy p = false) ∧
      s'.tasks = t :: s.tasks ∧ s'.sem = s.sem + 1) ∨
    (a = .finish w ∧ s'.tasks = s.tasks ∧ s'.sem = s.sem + 1) := by
  cases hstep with
  | submit pri c i =>
      rw [add_task_workers] at hidle
      exact absurd hidle (holdsTask_ne_idle hold)
  | pop w0 t0 r hw0 hsd hq =>
      dsimp only at hidle
      rw [Function.update_apply] at hidle
      by_cases hww : w = w0
      · rw [if_pos hww] at hidle; exact absurd hidle (by simp)
      · rw [if_neg hww] at hidle; exact absurd hidle (holdsTask_ne_idle hold)
  | acquire w0 t0 hw0 hsempos =>
      dsimp only at hidle
      rw [Function.update_apply] at hidle
      by_cases hww : w = w0
      · rw [if_pos hww] at hidle; exact absurd hidle (by simp)
      · rw [if_neg hww] at hidle; exact absurd hidle (holdsTask_ne_idle hold)
  | inject w0 t0 p rnd hw0 =>
      dsimp only at hidle
      rw [Function.update_apply] at hidle
      by_cases hww : w = w0
      · rw [if_pos hww] at hidle; exact absurd hidle (by simp)
      · rw [if_neg hww] at hidle; exact absurd hidle (holdsTask_ne_idle hold)
  | skipInject w0 t0 hw0 =>
      dsimp only at hidle
      rw [Function.update_apply] at hidle
      by_cases hww : w = w0
      · rw [if_pos hww] at hidle; exact absurd hidle (by simp)
      · rw [if_neg hww] at hidle; exact absurd hidle (holdsTask_ne_idle hold)
  | select w0 t0 p hw0 hh =>
      dsimp only at hidle
      rw [Function.update_apply] at hidle
      by_cases hww : w = w0
      · rw [if_pos hww] at hidle; exact absurd hidle (by simp)
      · rw [if_neg hww] at hidle; exact absurd hidle (holdsTask_ne_idle hold)
  | requeue w0 t0 hw0 hall =>
      by_cases hww : w = w0
      · have ht : t0 = t := by
          rcases hold with h | h | h | ⟨q, h⟩ <;> rw [hww, hw0] at h
          · exact absurd h (by simp)
          · exact absurd h (by simp)
          · simpa using h
          · exact absurd h (by simp)
        left
        refine ⟨by rw [hww], hall, ?_, rfl⟩
        dsimp only
        rw [ht]
      · dsimp only at hidle
        rw [Function.update_apply, if_neg hww] at hidle
        exact absurd hidle (holdsTask_ne_idle hold)
  | finish w0 t0 p hw0 =>
      by_cases hww : w = w0
      · right
        exact ⟨by rw [hww], rfl, rfl⟩
      · dsimp only at hidle
        rw [Function.update_apply, if_neg hww] at hidle
        exact absurd hidle (holdsTask_ne_idle hold)
  | extFail p rnd =>
      rw [processor_failure_workers] at hidle
      exact absurd hidle (holdsTask_ne_idle hold)
  | repair p =>
      rw [processor_repair_workers] at hidle
      exact absurd hidle (holdsTask_ne_idle hold)
  | halt =>
      exact absurd hidle (holdsTask_ne_idle hold)
  | exitWorker w0 hw0 hsd =>
      dsimp only at hidle
      rw [Function.update_apply] at hidle
      by_cases hww : w = w0
      · rw [if_pos hww] at hidle; exact absurd hidle (by simp)
      · rw [if_neg hww] at hidle; exact absurd hidle (holdsTask_ne_idle hold)

/-- A concrete state with one worker past the injection point and no healthy
processor. -/
def rqState : QState 1 :=
  { tasks := [], sem := 3, healthy := fun _ => false, procCount := fun _ => 0,
    nextTaskId := 1, shutdown := false,
    workers := fun _ => .staged ⟨2, false, 9⟩ }

end QuantumSimulator

/-- Claim C5: when a worker finds no healthy processor at selection time it
releases the admission slot it holds and pushes the very same task — id,
priority and critical flag unchanged — back onto the queue, returning to
the loop head; and this is the sole step that ever returns a held item to
the queue (the only other way a held item leaves its worker is the finish
branch, which leaves the queue unchanged).  The subsequent fixed 100 ms
backoff sleep is real-time behaviour outside the model. -/
theorem C5_requeue_intact :
    (∀ (n : Nat) (s : QuantumSimulator.QState n) (w : Fin n)
        (t : QuantumSimulator.Task),
      s.workers w = .staged t → (∀ p, s.healthy p = false) →
      QuantumSimulator.StepA n s (.requeue w)
        { s with tasks := t :: s.tasks, sem := s.sem + 1,
                 workers := Function.update s.workers w .idle }) ∧
    (∀ (n : Nat) (s s' : QuantumSimulator.QState n)
        (a : QuantumSimulator.ActA n) (w : Fin n) (t : QuantumSimulator.Task),
      QuantumSimulator.StepA n s a s' →
      QuantumSimulator.holdsTask (s.workers w) t → s'.workers w = .idle →
      (a = .requeue w ∧ (∀ p, s.healthy p = false) ∧
        s'.tasks = t :: s.tasks ∧ s'.sem = s.sem + 1) ∨
      (a = .finish w ∧ s'.tasks = s.tasks ∧ s'.sem = s.sem + 1)) :=
  ⟨fun n s w t hw hall => QuantumSimulator.StepA.requeue s w t hw hall,
    fun _ _ _ _ _ _ hstep hold hidle =>
      QuantumSimulator.requeue_sole hstep hold hidle⟩

/-- Claim C5 witness: the requeue step is enabled at a concrete state with a
staged task and no healthy processor, pushing that very task back. -/
theorem C5_requeue_intact_witness :
    QuantumSimulator.StepA 1 QuantumSimulator.rqState (.requeue 0)
      { QuantumSimulator.rqState with
          tasks := (⟨2, false, 9⟩ : QuantumSimulator.Task) ::
            QuantumSimulator.rqState.tasks,
          sem := QuantumSimulator.rqState.sem + 1,
          workers := Function.update QuantumSimulator.rqState.workers 0 .idle } :=
  C5_requeue_intact.1 1 QuantumSimulator.rqState 0 ⟨2, false, 9⟩ rfl
    (fun _ => rfl)

namespace QuantumSimulator

theorem add_task_tasks_default (s : QState n) (pri : Int) (c : Bool) :
    (add_task s pri c (-1)).1.tasks = Task.mk pri c s.nextTaskId :: s.tasks := by
  unfold add_task
  rw [if_pos rfl]

theorem add_task_nextTaskId_default (s : QState n) (pri : Int) (c : Bool) :
    (add_task s pri c (-1)).1.nextTaskId = s.nextTaskId + 1 := by
  unfold add_task
  rw [if_pos rfl]

theorem add_task_tasks_given (s : QState n) (pri : Int) (c : Bool)
    (tid : Int) (h : tid ≠ -1) :
    (add_task s pri c tid).1.tasks = Task.mk pri c tid :: s.tasks := by
  unfold add_task
  rw [if_neg h]

theorem add_task_nextTaskId_given (s : QState n) (pri : Int) (c : Bool)
    (tid : Int) (h : tid ≠ -1) :
    (add_task s pri c tid).1.nextTaskId = s.nextTaskId := by
  unfold add_task
  rw [if_neg h]

theorem redirect_nextTaskId (rnd : Nat → Nat × Nat) :
    ∀ (k i : Nat) (s : QState n),
      (redirect rnd s i k).nextTaskId = s.nextTaskId + k := by
  intro k
  induction k with
  | zero => intro i s; simp [redirect]
  | succ k ih =>
      intro i s
      rw [redirect, ih, add_task_nextTaskId_default]
      omega

theorem redirect_tasks (rnd : Nat → Nat × Nat) :
    ∀ (k i : Nat) (s : QState n),
      ∃ new : List Task, (redirect rnd s i k).tasks = new ++ s.tasks ∧
        new.length = k ∧ ∀ t ∈ new, 1 ≤ t.priority ∧ t.priority ≤ 5 := by
  intro k
  induction k with
  | zero => intro i s; exact ⟨[], rfl, rfl, by simp⟩
  | succ k ih =>
      intro i s
      obtain ⟨new, h1, h2, h3⟩ :=
        ih (i + 1) (add_task s (1 + (((rnd i).1 % 5 : Nat) : Int))
          ((rnd i).2 % 10 == 0) (-1)).1
      refine ⟨new ++ [⟨1 + (((rnd i).1 % 5 : Nat) : Int),
        (rnd i).2 % 10 == 0, s.nextTaskId⟩], ?_, ?_, ?_⟩
      · rw [redirect, h1, add_task_tasks_default]
        simp
      · simp [h2]
      · intro t ht
        rcases List.mem_append.mp ht with h | h
        · exact h3 t h
        · rcases List.mem_singleton.mp h with rfl
          have hm : ((rnd i).1 % 5 : Nat) < 5 := Nat.mod_lt _ (by norm_num)
          constructor
          · dsimp only
            omega
          · dsimp only
            omega

/-- `processor_failure` on an already unhealthy processor is a reported
no-op: the state is returned unchanged. -/
theorem processor_failure_noop {n : Nat} {s : QState n} {p : Fin 4}
    {rnd : Nat → Nat × Nat} (h : s.healthy p = false) :
    processor_failure s p rnd = (s, ()) := by
  unfold processor_failure
  rw [if_pos h]

/-- `processor_failure` on a healthy processor: marks it unhealthy, zeroes
its in-flight count after reading it as `k`, touches no other processor and
not the semaphore, advances the id counter by `k`, and pushes exactly `k`
replacement tasks with randomized priorities in `[1,5]`. -/
theorem processor_failure_spec {n : Nat} {s : QState n} {p : Fin 4}
    {rnd : Nat → Nat × Nat} (h : s.healthy p = true) :
    (processor_failure s p rnd).1.healthy p = false ∧
    (processor_failure s p rnd).1.procCount p = 0 ∧
    (∀ q, q ≠ p → (processor_failure s p rnd).1.healthy q = s.healthy q ∧
      (processor_failure s p rnd).1.procCount q = s.procCount q) ∧
    (processor_failure s p rnd).1.sem = s.sem ∧
    (processor_failure s p rnd).1.shutdown = s.shutdown ∧
    (processor_failure s p rnd).1.nextTaskId
      = s.nextTaskId + (s.procCount p).toNat ∧
    (∃ new : List Task,
      (processor_failure s p rnd).1.tasks = new ++ s.tasks ∧
      new.length = (s.procCount p).toNat ∧
      ∀ t ∈ new, 1 ≤ t.priority ∧ t.priority ≤ 5) := by
  have hcond : ¬(s.healthy p = false) := by rw [h]; simp
  unfold processor_failure
  rw [if_neg hcond]
  dsimp only
  refine ⟨?_, ?_, ?_, ?_, ?_, ?_, ?_⟩
  · rw [redirect_healthy]
    exact Function.update_same p false s.healthy
  · rw [redirect_procCount]
    exact Function.update_same p 0 s.procCount
  · intro q hq
    rw [redirect_healthy, redirect_procCount]
    exact ⟨Function.update_noteq hq false s.healthy,
      Function.update_noteq hq 0 s.procCount⟩
  · rw [redirect_sem]
  · rw [redirect_shutdown]
  · rw [redirect_nextTaskId]
  · exact redirect_tasks rnd (s.procCount p).toNat 0 _

/-- The replacement-draw stream used in the concrete traces: priority draw 2
(priority 3), criticality draw 1 (non-critical). -/
def c4rnd : Nat → Nat × Nat := fun _ => (2, 1)

/-- A healthy concrete state with one task in flight at each processor. -/
def c4sA : QState 1 := { initA 1 with procCount := fun _ => 1 }

/-- A healthy concrete state with two tasks in flight at each processor. -/
def c4sB : QState 1 := { initA 1 with procCount := fun _ => 2 }

/-- An all-unhealthy concrete state. -/
def c4dead : QState 1 := { initA 1 with healthy := fun _ => false }

end QuantumSimulator

/-- Claim C4 counterexample: `processor_failure` is `void` — its return
value is the unit value, so no caller can read the in-flight count `k` off
the return: no function of the returned value yields the count for both of
two concrete healthy calls whose counts differ (1 and 2). -/
theorem C4_counterexample :
    ¬ ∃ f : Unit → Int,
      f (QuantumSimulator.processor_failure QuantumSimulator.c4sA 0
          QuantumSimulator.c4rnd).2 = QuantumSimulator.c4sA.procCount 0 ∧
      f (QuantumSimulator.processor_failure QuantumSimulator.c4sB 0
          QuantumSimulator.c4rnd).2 = QuantumSimulator.c4sB.procCount 0 := by
  rintro ⟨f, h1, h2⟩
  have h1' : f () = 1 := h1
  have h2' : f () = 2 := h2
  rw [h1'] at h2'
  exact absurd h2' (by decide)

/-- Claim C4 (amended): `fail(id)` on an already-unhealthy processor is a
reported no-op that changes no state; on a healthy one it marks the
processor unhealthy, atomically reads and zeroes its in-flight count
obtaining `k`, and itself pushes exactly `k` replacement tasks with freshly
randomized priority in `[1,5]` and criticality, drawing their ids from the
auto-assignment counter; the function returns nothing (it is `void`), so
the count is not reported to a caller. -/
theorem C4_fail_semantics_amended :
    (∀ (n : Nat) (s : QuantumSimulator.QState n) (p : Fin 4)
        (rnd : Nat → Nat × Nat), s.healthy p = false →
      QuantumSimulator.processor_failure s p rnd = (s, ())) ∧
    (∀ (n : Nat) (s : QuantumSimulator.QState n) (p : Fin 4)
        (rnd : Nat → Nat × Nat), s.healthy p = true →
      (QuantumSimulator.processor_failure s p rnd).1.healthy p = false ∧
      (QuantumSimulator.processor_failure s p rnd).1.procCount p = 0 ∧
      (∀ q, q ≠ p →
        (QuantumSimulator.processor_failure s p rnd).1.healthy q = s.healthy q ∧
        (QuantumSimulator.processor_failure s p rnd).1.procCount q
          = s.procCount q) ∧
      (QuantumSimulator.processor_failure s p rnd).1.sem = s.sem ∧
      (QuantumSimulator.processor_failure s p rnd).1.shutdown = s.shutdown ∧
      (QuantumSimulator.processor_failure s p rnd).1.nextTaskId
        = s.nextTaskId + (s.procCount p).toNat ∧
      (∃ new : List QuantumSimulator.Task,
        (QuantumSimulator.processor_failure s p rnd).1.tasks = new ++ s.tasks ∧
        new.length = (s.procCount p).toNat ∧
        ∀ t ∈ new, 1 ≤ t.priority ∧ t.priority ≤ 5)) :=
  ⟨fun _ _ _ _ h => QuantumSimulator.processor_failure_noop h,
    fun _ _ _ _ h => QuantumSimulator.processor_failure_spec h⟩

/-- Claim C4 witness: the no-op branch at a concrete unhealthy state and the
unhealthy-marking at a concrete healthy state. -/
theorem C4_fail_semantics_amended_witness :
    QuantumSimulator.processor_failure QuantumSimulator.c4dead 0
        QuantumSimulator.c4rnd = (QuantumSimulator.c4dead, ()) ∧
    (QuantumSimulator.processor_failure QuantumSimulator.c4sA 0
        QuantumSimulator.c4rnd).1.healthy 0 = false :=
  ⟨C4_fail_semantics_amended.1 1 QuantumSimulator.c4dead 0
      QuantumSimulator.c4rnd rfl,
    (C4_fail_semantics_amended.2 1 QuantumSimulator.c4sA 0
      QuantumSimulator.c4rnd rfl).1⟩

namespace QuantumSimulator

/-- The state after one default-id submission from the constructed state:
its id counter stands at 2. -/
def c8next2 : QState 1 := (add_task (initA 1) 2 false (-1)).1

end QuantumSimulator

/-- Claim C8 counterexample: `add_task` is `void` — its return value is the
unit value, so the assigned id is not returned to the caller: no function
of the returned value yields the assigned id for both of two concrete
default-id submissions whose assigned ids differ (1 and 2). -/
theorem C8_counterexample :
    ¬ ∃ f : Unit → Int,
      f (QuantumSimulator.add_task (QuantumSimulator.initA 1) 2 false (-1)).2
          = QuantumSimulator.assigned_id (QuantumSimulator.initA 1) (-1) ∧
      f (QuantumSimulator.add_task QuantumSimulator.c8next2 2 false (-1)).2
          = QuantumSimulator.assigned_id QuantumSimulator.c8next2 (-1) := by
  rintro ⟨f, h1, h2⟩
  have h1' : f () = 1 := by
    have e : QuantumSimulator.assigned_id (QuantumSimulator.initA 1) (-1)
        = 1 := by decide
    rw [← e]
    exact h1
  have h2' : f () = 2 := by
    have e : QuantumSimulator.assigned_id QuantumSimulator.c8next2 (-1)
        = 2 := by decide
    rw [← e]
    exact h2
  rw [h1'] at h2'
  exact absurd h2' (by decide)

/-- Claim C8 (amended): the submit operation takes a priority, a critical
flag and — in variant A — an optional caller id with sentinel `-1`; when
the sentinel is passed, the system assigns `next_task_id` and advances the
counter, otherwise the caller's id is pushed unchanged and the counter is
not advanced; the operation returns nothing (it is `void`), so the assigned
id is not reported to the caller.  In variant B the station id is a
required argument, never system-assigned. -/
theorem C8_submit_amended :
    (∀ (n : Nat) (s : QuantumSimulator.QState n) (pri : Int) (c : Bool),
      (QuantumSimulator.add_task s pri c (-1)).1.tasks
        = ⟨pri, c, s.nextTaskId⟩ :: s.tasks ∧
      (QuantumSimulator.add_task s pri c (-1)).1.nextTaskId
        = s.nextTaskId + 1 ∧
      QuantumSimulator.assigned_id s (-1) = s.nextTaskId) ∧
    (∀ (n : Nat) (s : QuantumSimulator.QState n) (pri : Int) (c : Bool)
        (tid : Int), tid ≠ -1 →
      (QuantumSimulator.add_task s pri c tid).1.tasks
        = ⟨pri, c, tid⟩ :: s.tasks ∧
      (QuantumSimulator.add_task s pri c tid).1.nextTaskId = s.nextTaskId ∧
      QuantumSimulator.assigned_id s tid = tid) ∧
    (∀ (n : Nat) (s : QuantumSimulator.QState n) (pri : Int) (c : Bool)
        (tid : Int), (QuantumSimulator.add_task s pri c tid).2 = ()) ∧
    (∀ (s : EnergyMonitorSystem.EState) (pri : Int) (c : Bool) (sid : Int),
      (EnergyMonitorSystem.add_data_packet s pri c sid).1.data_packets
        = ⟨pri, c, sid⟩ :: s.data_packets ∧
      (EnergyMonitorSystem.add_data_packet s pri c sid).2 = ()) := by
  refine ⟨?_, ?_, ?_, ?_⟩
  · intro n s pri c
    refine ⟨QuantumSimulator.add_task_tasks_default s pri c,
      QuantumSimulator.add_task_nextTaskId_default s pri c, ?_⟩
    unfold QuantumSimulator.assigned_id
    rw [if_pos rfl]
  · intro n s pri c tid h
    refine ⟨QuantumSimulator.add_task_tasks_given s pri c tid h,
      QuantumSimulator.add_task_nextTaskId_given s pri c tid h, ?_⟩
    unfold QuantumSimulator.assigned_id
    rw [if_neg h]
  · intro n s pri c tid
    rfl
  · intro s pri c sid
    exact ⟨rfl, rfl⟩

/-- Claim C8 witness: both submit branches at concrete inputs — the default
sentinel assigns id 1 from the fresh counter, and an explicit id 7 is used
unchanged. -/
theorem C8_submit_amended_witness :
    (QuantumSimulator.add_task (QuantumSimulator.initA 1) 2 false (-1)).1.tasks
      = [⟨2, false, 1⟩] ∧
    (QuantumSimulator.add_task (QuantumSimulator.initA 1) 2 false 7).1.tasks
      = [⟨2, false, 7⟩] :=
  ⟨(C8_submit_amended.1 1 (QuantumSimulator.initA 1) 2 false).1,
    (C8_submit_amended.2.1 1 (QuantumSimulator.initA 1) 2 false 7
      (by decide)).1⟩

/-- Claim C10: work-item id uniqueness is not enforced — the auto-assignment
counter starts at 1 and is never advanced past caller-supplied ids, so a
caller-submitted task with explicit id 1 and a failure-redirection
replacement task with auto-assigned id 1 can sit in the queue at the same
time: a reachable state whose queue holds the two distinct tasks
`{pri=3, crit=false, id=1}` and `{pri=5, crit=false, id=1}`. -/
theorem C10_duplicate_ids :
    ∃ s : QuantumSimulator.QState 2,
      QuantumSimulator.ReachA 2 s ∧
      s.tasks = [⟨3, false, 1⟩, ⟨5, false, 1⟩] ∧
      (⟨3, false, 1⟩ : QuantumSimulator.Task) ≠ ⟨5, false, 1⟩ ∧
      (⟨3, false, 1⟩ : QuantumSimulator.Task).task_id
        = (⟨5, false, 1⟩ : QuantumSimulator.Task).task_id := by
  have h1 := QuantumSimulator.ReachA.step (QuantumSimulator.ReachA.init)
    (QuantumSimulator.StepA.submit (QuantumSimulator.initA 2) 1 false 5)
  have h2 := QuantumSimulator.ReachA.step h1
    (QuantumSimulator.StepA.submit _ 5 false 1)
  have h3 := QuantumSimulator.ReachA.step h2
    (QuantumSimulator.StepA.pop _ 0 ⟨1, false, 5⟩ [⟨5, false, 1⟩] rfl rfl rfl)
  have h4 := QuantumSimulator.ReachA.step h3
    (QuantumSimulator.StepA.acquire _ 0 ⟨1, false, 5⟩ rfl (by decide))
  have h5 := QuantumSimulator.ReachA.step h4
    (QuantumSimulator.StepA.skipInject _ 0 ⟨1, false, 5⟩ rfl)
  have h6 := QuantumSimulator.ReachA.step h5
    (QuantumSimulator.StepA.select _ 0 ⟨1, false, 5⟩ 0 rfl rfl)
  have h7 := QuantumSimulator.ReachA.step h6
    (QuantumSimulator.StepA.submit _ 2 false 6)
  have h8 := QuantumSimulator.ReachA.step h7
    (QuantumSimulator.StepA.pop _ 1 ⟨2, false, 6⟩ [⟨5, false, 1⟩] rfl rfl rfl)
  have h9 := QuantumSimulator.ReachA.step h8
    (QuantumSimulator.StepA.acquire _ 1 ⟨2, false, 6⟩ rfl (by decide))
  have h10 := QuantumSimulator.ReachA.step h9
    (QuantumSimulator.StepA.inject _ 1 ⟨2, false, 6⟩ 0 QuantumSimulator.c4rnd rfl)
  exact ⟨_, h10, by decide, by decide, rfl⟩

namespace EnergyMonitorSystem

/-- A packet for the variant-B gate-wait observation. -/
def c9Packet : DataPacket := ⟨2, false, 4⟩

/-- A reachable state with the single server between its queue pop and its
`data_semaphore.wait()`. -/
def c9GotState : EState :=
  { data_packets := [], sem := 2, current_load := 0, additional_handlers := 0,
    emergency_mode := false, shutdown := false, server := .got c9Packet }

theorem reach_c9Got : ReachB c9GotState := by
  have h1 : ReachB (add_data_packet initB 2 false 4).1 :=
    ReachB.step ReachB.init (StepB.push initB 2 false 4)
  exact ReachB.step h1 (StepB.pop _ c9Packet [] rfl rfl rfl)

end EnergyMonitorSystem

namespace QuantumSimulator

/-- A state with one idle worker and the shutdown flag set. -/
def c9HaltState : QState 1 := { initA 1 with shutdown := true }

end QuantumSimulator

/-- Claim C9 counterexample: the admission-gate wait is a plain semaphore
wait, not interruptible by the shutdown flag.  A reachable state of
variant A with 5 workers: four workers hold all 4 admission slots, worker 0
has popped a task and is parked in `task_semaphore.wait()` with the
semaphore at 0, and `stop()` has set the shutdown flag; no step of the
system moves worker 0 to its terminated state, and a continuation exists in
which worker 0 — despite shutdown having been signalled while it was
blocked mid-wait — goes on to execute its task. -/
theorem C9_counterexample :
    ∃ s : QuantumSimulator.QState 5,
      QuantumSimulator.ReachA 5 s ∧ s.shutdown = true ∧
      s.workers 0 = .got ⟨5, false, 5⟩ ∧ s.sem = 0 ∧
      (∀ (a : QuantumSimulator.ActA 5) (s' : QuantumSimulator.QState 5),
        QuantumSimulator.StepA 5 s a s' → s'.workers 0 ≠ .terminated) ∧
      (∃ s' : QuantumSimulator.QState 5,
        QuantumSimulator.ReachA 5 s' ∧ s'.shutdown = true ∧
        ∃ p, s'.workers 0 = .running ⟨5, false, 5⟩ p) := by
  have h1 := QuantumSimulator.ReachA.step (QuantumSimulator.ReachA.init)
    (QuantumSimulator.StepA.submit (QuantumSimulator.initA 5) 1 false 1)
  have h2 := QuantumSimulator.ReachA.step h1
    (QuantumSimulator.StepA.submit _ 2 false 2)
  have h3 := QuantumSimulator.ReachA.step h2
    (QuantumSimulator.StepA.submit _ 3 false 3)
  have h4 := QuantumSimulator.ReachA.step h3
    (QuantumSimulator.StepA.submit _ 4 false 4)
  have h5 := QuantumSimulator.ReachA.step h4
    (QuantumSimulator.StepA.submit _ 5 false 5)
  have h6 := QuantumSimulator.ReachA.step h5
    (QuantumSimulator.StepA.pop _ 1 ⟨1, false, 1⟩
      [⟨5, false, 5⟩, ⟨4, false, 4⟩, ⟨3, false, 3⟩, ⟨2, false, 2⟩] rfl rfl rfl)
  have h7 := QuantumSimulator.ReachA.step h6
    (QuantumSimulator.StepA.acquire _ 1 ⟨1, false, 1⟩ rfl (by decide))
  have h8 := QuantumSimulator.ReachA.step h7
    (QuantumSimulator.StepA.pop _ 2 ⟨2, false, 2⟩
      [⟨5, false, 5⟩, ⟨4, false, 4⟩, ⟨3, false, 3⟩] rfl rfl rfl)
  have h9 := QuantumSimulator.ReachA.step h8
    (QuantumSimulator.StepA.acquire _ 2 ⟨2, false, 2⟩ rfl (by decide))
  have h10 := QuantumSimulator.ReachA.step h9
    (QuantumSimulator.StepA.pop _ 3 ⟨3, false, 3⟩
      [⟨5, false, 5⟩, ⟨4, false, 4⟩] rfl rfl rfl)
  have h11 := QuantumSimulator.ReachA.step h10
    (QuantumSimulator.StepA.acquire _ 3 ⟨3, false, 3⟩ rfl (by decide))
  have h12 := QuantumSimulator.ReachA.step h11
    (QuantumSimulator.StepA.pop _ 4 ⟨4, false, 4⟩ [⟨5, false, 5⟩] rfl rfl rfl)
  have h13 := QuantumSimulator.ReachA.step h12
    (QuantumSimulator.StepA.acquire _ 4 ⟨4, false, 4⟩ rfl (by decide))
  have h14 := QuantumSimulator.ReachA.step h13
    (QuantumSimulator.StepA.pop _ 0 ⟨5, false, 5⟩ [] rfl rfl rfl)
  have h15 := QuantumSimulator.ReachA.step h14 (QuantumSimulator.StepA.halt _)
  refine ⟨_, h15, rfl, by decide, rfl, ?_, ?_⟩
  · intro a s' hstep
    cases hstep with
    | submit pri c i =>
        rw [QuantumSimulator.add_task_workers]
        decide
    | pop w0 t0 r hw0 hsd hq => exact absurd hsd (by decide)
    | acquire w0 t0 hw0 hsempos => exact absurd hsempos (by decide)
    | inject w0 t0 p rnd hw0 =>
        dsimp only
        rw [Function.update_apply]
        split
        · simp
        · decide
    | skipInject w0 t0 hw0 =>
        dsimp only
        rw [Function.update_apply]
        split
        · simp
        · decide
    | select w0 t0 p hw0 hh =>
        dsimp only
        rw [Function.update_apply]
        split
        · simp
        · decide
    | requeue w0 t0 hw0 hall => exact absurd (hall 0) (by decide)
    | finish w0 t0 p hw0 =>
        dsimp only
        rw [Function.update_apply]
        split
        · simp
        · decide
    | extFail p rnd =>
        rw [QuantumSimulator.processor_failure_workers]
        decide
    | repair p =>
        rw [QuantumSimulator.processor_repair_workers]
        decide
    | halt => decide
    | exitWorker w0 hw0 hsd =>
        dsimp only
        rw [Function.update_apply]
        split
        · exact absurd hw0 (by revert w0; decide)
        · decide
  · have h16 := QuantumSimulator.ReachA.step h15
      (QuantumSimulator.StepA.skipInject _ 1 ⟨1, false, 1⟩ rfl)
    have h17 := QuantumSimulator.ReachA.step h16
      (QuantumSimulator.StepA.select _ 1 ⟨1, false, 1⟩ 0 rfl rfl)
    have h18 := QuantumSimulator.ReachA.step h17
      (QuantumSimulator.StepA.finish _ 1 ⟨1, false, 1⟩ 0 rfl)
    have h19 := QuantumSimulator.ReachA.step h18
      (QuantumSimulator.StepA.acquire _ 0 ⟨5, false, 5⟩ rfl (by decide))
    have h20 := QuantumSimulator.ReachA.step h19
      (QuantumSimulator.StepA.skipInject _ 0 ⟨5, false, 5⟩ rfl)
    have h21 := QuantumSimulator.ReachA.step h20
      (QuantumSimulator.StepA.select _ 0 ⟨5, false, 5⟩ 1 rfl rfl)
    exact ⟨_, h21, rfl, 1, by decide⟩

/-- Claim C9 (amended): `stop()` sets the shared shutdown flag and wakes all
queue waiters — once it is set, every worker at the queue wait can
immediately terminate, and no worker ever pops an item under shutdown (the
queue wait re-checks the flag before popping).  The admission-gate wait, by
contrast, is a plain semaphore wait: its only enabling condition is a
positive semaphore count, the shutdown flag playing no role, so a worker
parked there proceeds — and then executes the item it holds — only when
another worker posts a slot.  In variant B the gate wait never blocks at
all: whenever the server is about to wait, the semaphore count is
positive. -/
theorem C9_shutdown_amended :
    (∀ (n : Nat) (s : QuantumSimulator.QState n) (w : Fin n),
      s.workers w = .idle → s.shutdown = true →
      QuantumSimulator.StepA n s (.exitWorker w)
        { s with workers := Function.update s.workers w .terminated }) ∧
    (∀ (n : Nat) (s s' : QuantumSimulator.QState n) (w : Fin n),
      QuantumSimulator.StepA n s (.pop w) s' → s.shutdown = false) ∧
    (∀ (n : Nat) (s s' : QuantumSimulator.QState n) (w : Fin n),
      QuantumSimulator.StepA n s (.acquire w) s' → 0 < s.sem) ∧
    (∀ s : EnergyMonitorSystem.EState, EnergyMonitorSystem.ReachB s →
      ∀ p : EnergyMonitorSystem.DataPacket,
        s.server = .got p → 0 < s.sem) ∧
    (∀ (n : Nat) (s : QuantumSimulator.QState n),
      QuantumSimulator.StepA n s .halt { s with shutdown := true }) ∧
    (∀ s : EnergyMonitorSystem.EState,
      EnergyMonitorSystem.StepB s .halt { s with shutdown := true }) := by
  refine ⟨?_, ?_, ?_, ?_, ?_, ?_⟩
  · intro n s w hw hsd
    exact QuantumSimulator.StepA.exitWorker s w hw hsd
  · intro n s s' w hstep
    cases hstep with
    | pop w0 t0 r hw0 hsd hq => exact hsd
  · intro n s s' w hstep
    cases hstep with
    | acquire w0 t0 hw0 hsempos => exact hsempos
  · intro s hre p hs
    obtain ⟨hsem, ha0, _⟩ := EnergyMonitorSystem.InvB_reach hre
    rw [hs, EnergyMonitorSystem.holdB_got] at hsem
    omega
  · intro n s
    exact QuantumSimulator.StepA.halt s
  · intro s
    exact EnergyMonitorSystem.StepB.halt s

/-- Claim C9 witness: an idle worker terminates under shutdown at a concrete
state, and the variant-B server about to wait at the gate sees a positive
semaphore count at a concrete reachable state. -/
theorem C9_shutdown_amended_witness :
    QuantumSimulator.StepA 1 QuantumSimulator.c9HaltState (.exitWorker 0)
      { QuantumSimulator.c9HaltState with
          workers := Function.update QuantumSimulator.c9HaltState.workers 0
            .terminated } ∧
    0 < EnergyMonitorSystem.c9GotState.sem :=
  ⟨C9_shutdown_amended.1 1 QuantumSimulator.c9HaltState 0 rfl rfl,
    C9_shutdown_amended.2.2.2.1 EnergyMonitorSystem.c9GotState
      EnergyMonitorSystem.reach_c9Got EnergyMonitorSystem.c9Packet rfl⟩

/-- Claim C7 witness: the load bounds at the concrete constructed state, and
the exact update at the concrete reachable execution state of the emergency
trace's packet with processing time 100 ms. -/
theorem C7_load_and_elastic_capacity_witness :
    0 ≤ (EnergyMonitorSystem.initB).current_load ∧
    (EnergyMonitorSystem.initB).current_load ≤ 100 :=
  C7_load_and_elastic_capacity.1 EnergyMonitorSystem.initB
    EnergyMonitorSystem.ReachB.init
